import Mathlib

/-!
Shallow embedding of the POS-ingestion pipeline: `scripts/normalize.py`,
`scripts/ingest_doordash.py`, `scripts/ingest_square.py`,
`scripts/ingest_toast.py`, together with a model of the idempotent write
coordinator (the supabase upsert/select/delete/insert sequence each script
performs per order).

Conventions of the embedding:
* Python values read from the source JSON documents are modelled by `JVal`;
  Python floats are modelled as exact rationals.
* An operation that can raise a Python exception is modelled in
  `Except Unit`; `.error ()` is "raises", `.ok` is normal return.
* `dict.get` of a missing key is `none`; a record field that may be absent
  from the source document has type `Option JVal`.
* Python `int()` truncates toward zero (`Int.tdiv`), `x or y` returns `x`
  when `x` is truthy and `y` otherwise.
-/

namespace Ingest

/-- Whitespace test used by Python `str.strip` / `str.split` (ASCII range). -/
def pyIsSpace (c : Char) : Bool :=
  decide (c.toNat = 32 ∨ c.toNat = 9 ∨ c.toNat = 10 ∨ c.toNat = 11 ∨ c.toNat = 12 ∨
    c.toNat = 13)

/-- The `unicodedata.category(ch)[0] == "S"` test of `normalize.py`, i.e.
membership of the character in the Unicode Symbol general categories,
modelled on the ASCII symbols and the contiguous symbol blocks
(currency signs, arrows, mathematical operators, box drawing, block
elements, geometric shapes and miscellaneous symbols — the last block
contains U+2615 HOT BEVERAGE). -/
def isSymbolChar (c : Char) : Bool :=
  decide (c.toNat = 36 ∨ c.toNat = 43 ∨ (60 ≤ c.toNat ∧ c.toNat ≤ 62) ∨ c.toNat = 94 ∨
    c.toNat = 96 ∨ c.toNat = 124 ∨ c.toNat = 126 ∨ c.toNat = 172 ∨ c.toNat = 177 ∨
    (0x20A0 ≤ c.toNat ∧ c.toNat ≤ 0x20BF) ∨ (0x2190 ≤ c.toNat ∧ c.toNat ≤ 0x22FF) ∨
    (0x2500 ≤ c.toNat ∧ c.toNat ≤ 0x26FF))

/-- Python `str.lower`, per character (ASCII case mapping). -/
def pyLower (c : Char) : Char :=
  if 65 ≤ c.toNat ∧ c.toNat ≤ 90 then Char.ofNat (c.toNat + 32) else c

/-- Python `str.lstrip` on a character list. -/
def stripLeadL (l : List Char) : List Char := l.dropWhile pyIsSpace

/-- Python `str.rstrip` on a character list. -/
def stripRightL : List Char → List Char
  | [] => []
  | c :: cs =>
    match stripRightL cs with
    | [] => if pyIsSpace c then [] else [c]
    | r => c :: r

/-- Python `str.strip` on a character list. -/
def pyStripL (l : List Char) : List Char := stripRightL (stripLeadL l)

/-- State of the `str.split` scanner: current (reversed-free) token and the
tokens already finished to the right of it. -/
def wordsStep (c : Char) (acc : List Char × List (List Char)) :
    List Char × List (List Char) :=
  if pyIsSpace c then ([], if acc.1.isEmpty then acc.2 else acc.1 :: acc.2)
  else (c :: acc.1, acc.2)

def wordsAux (l : List Char) : List Char × List (List Char) :=
  l.foldr wordsStep ([], [])

/-- Python `str.split()` (split on whitespace runs, no empty tokens). -/
def pyWords (l : List Char) : List (List Char) :=
  if (wordsAux l).1.isEmpty then (wordsAux l).2 else (wordsAux l).1 :: (wordsAux l).2

/-- Python `" ".join` on tokens. -/
def joinSpace : List (List Char) → List Char
  | [] => []
  | [t] => t
  | t :: ts => t ++ ' ' :: joinSpace ts

/-- `normalize_name` of `normalize.py`: lowercase + trim + collapse
whitespace (`" ".join(s.strip().lower().split())`). -/
def normalize_name (s : String) : String :=
  ⟨joinSpace (pyWords ((pyStripL s.data).map pyLower))⟩

/-- `normalize_category` of `normalize.py` at the character-list level:
strip, drop Unicode symbol-class characters, drop the astral-plane
characters matched by `_EMOJI_RE`, then lowercase + collapse whitespace. -/
def normalizeCategoryL (l : List Char) : List Char :=
  joinSpace (pyWords ((((pyStripL l).filter (fun c => !isSymbolChar c)).filter
    (fun c => c.toNat < 0x10000)).map pyLower))

/-- `normalize_category` of `normalize.py`. -/
def normalize_category (s : String) : String :=
  ⟨normalizeCategoryL s.data⟩

end Ingest

namespace Ingest

/-- JSON-like values carried by the source export documents. Python floats
are modelled as exact rationals. -/
inductive JVal where
  | jnull : JVal
  | jbool : Bool → JVal
  | jint : Int → JVal
  | jrat : Rat → JVal
  | jstr : String → JVal
  | jarr : List JVal → JVal
  | jobj : List (String × JVal) → JVal

mutual

def JVal.decEq : (a b : JVal) → Decidable (a = b)
  | .jnull, .jnull => isTrue rfl
  | .jbool a, .jbool b =>
      match inferInstanceAs (Decidable (a = b)) with
      | isTrue h => isTrue (by rw [h])
      | isFalse h => isFalse (by intro hh; cases hh; exact h rfl)
  | .jint a, .jint b =>
      match inferInstanceAs (Decidable (a = b)) with
      | isTrue h => isTrue (by rw [h])
      | isFalse h => isFalse (by intro hh; cases hh; exact h rfl)
  | .jrat a, .jrat b =>
      match inferInstanceAs (Decidable (a = b)) with
      | isTrue h => isTrue (by rw [h])
      | isFalse h => isFalse (by intro hh; cases hh; exact h rfl)
  | .jstr a, .jstr b =>
      match inferInstanceAs (Decidable (a = b)) with
      | isTrue h => isTrue (by rw [h])
      | isFalse h => isFalse (by intro hh; cases hh; exact h rfl)
  | .jarr xs, .jarr ys =>
      match JVal.decEqList xs ys with
      | isTrue h => isTrue (by rw [h])
      | isFalse h => isFalse (by intro hh; cases hh; exact h rfl)
  | .jobj xs, .jobj ys =>
      match JVal.decEqObj xs ys with
      | isTrue h => isTrue (by rw [h])
      | isFalse h => isFalse (by intro hh; cases hh; exact h rfl)
  | .jnull, .jbool _ => isFalse (fun h => JVal.noConfusion h)
  | .jnull, .jint _ => isFalse (fun h => JVal.noConfusion h)
  | .jnull, .jrat _ => isFalse (fun h => JVal.noConfusion h)
  | .jnull, .jstr _ => isFalse (fun h => JVal.noConfusion h)
  | .jnull, .jarr _ => isFalse (fun h => JVal.noConfusion h)
  | .jnull, .jobj _ => isFalse (fun h => JVal.noConfusion h)
  | .jbool _, .jnull => isFalse (fun h => JVal.noConfusion h)
  | .jbool _, .jint _ => isFalse (fun h => JVal.noConfusion h)
  | .jbool _, .jrat _ => isFalse (fun h => JVal.noConfusion h)
  | .jbool _, .jstr _ => isFalse (fun h => JVal.noConfusion h)
  | .jbool _, .jarr _ => isFalse (fun h => JVal.noConfusion h)
  | .jbool _, .jobj _ => isFalse (fun h => JVal.noConfusion h)
  | .jint _, .jnull => isFalse (fun h => JVal.noConfusion h)
  | .jint _, .jbool _ => isFalse (fun h => JVal.noConfusion h)
  | .jint _, .jrat _ => isFalse (fun h => JVal.noConfusion h)
  | .jint _, .jstr _ => isFalse (fun h => JVal.noConfusion h)
  | .jint _, .jarr _ => isFalse (fun h => JVal.noConfusion h)
  | .jint _, .jobj _ => isFalse (fun h => JVal.noConfusion h)
  | .jrat _, .jnull => isFalse (fun h => JVal.noConfusion h)
  | .jrat _, .jbool _ => isFalse (fun h => JVal.noConfusion h)
  | .jrat _, .jint _ => isFalse (fun h => JVal.noConfusion h)
  | .jrat _, .jstr _ => isFalse (fun h => JVal.noConfusion h)
  | .jrat _, .jarr _ => isFalse (fun h => JVal.noConfusion h)
  | .jrat _, .jobj _ => isFalse (fun h => JVal.noConfusion h)
  | .jstr _, .jnull => isFalse (fun h => JVal.noConfusion h)
  | .jstr _, .jbool _ => isFalse (fun h => JVal.noConfusion h)
  | .jstr _, .jint _ => isFalse (fun h => JVal.noConfusion h)
  | .jstr _, .jrat _ => isFalse (fun h => JVal.noConfusion h)
  | .jstr _, .jarr _ => isFalse (fun h => JVal.noConfusion h)
  | .jstr _, .jobj _ => isFalse (fun h => JVal.noConfusion h)
  | .jarr _, .jnull => isFalse (fun h => JVal.noConfusion h)
  | .jarr _, .jbool _ => isFalse (fun h => JVal.noConfusion h)
  | .jarr _, .jint _ => isFalse (fun h => JVal.noConfusion h)
  | .jarr _, .jrat _ => isFalse (fun h => JVal.noConfusion h)
  | .jarr _, .jstr _ => isFalse (fun h => JVal.noConfusion h)
  | .jarr _, .jobj _ => isFalse (fun h => JVal.noConfusion h)
  | .jobj _, .jnull => isFalse (fun h => JVal.noConfusion h)
  | .jobj _, .jbool _ => isFalse (fun h => JVal.noConfusion h)
  | .jobj _, .jint _ => isFalse (fun h => JVal.noConfusion h)
  | .jobj _, .jrat _ => isFalse (fun h => JVal.noConfusion h)
  | .jobj _, .jstr _ => isFalse (fun h => JVal.noConfusion h)
  | .jobj _, .jarr _ => isFalse (fun h => JVal.noConfusion h)

def JVal.decEqList : (xs ys : List JVal) → Decidable (xs = ys)
  | [], [] => isTrue rfl
  | [], _ :: _ => isFalse (fun h => List.noConfusion h)
  | _ :: _, [] => isFalse (fun h => List.noConfusion h)
  | x :: xs, y :: ys =>
      match JVal.decEq x y with
      | isFalse h => isFalse (by intro hh; cases hh; exact h rfl)
      | isTrue h1 =>
        match JVal.decEqList xs ys with
        | isTrue h2 => isTrue (by rw [h1, h2])
        | isFalse h => isFalse (by intro hh; cases hh; exact h rfl)

def JVal.decEqObj : (xs ys : List (String × JVal)) → Decidable (xs = ys)
  | [], [] => isTrue rfl
  | [], _ :: _ => isFalse (fun h => List.noConfusion h)
  | _ :: _, [] => isFalse (fun h => List.noConfusion h)
  | (k, x) :: xs, (k2, y) :: ys =>
      match inferInstanceAs (Decidable (k = k2)) with
      | isFalse h => isFalse (by intro hh; cases hh; exact h rfl)
      | isTrue hk =>
        match JVal.decEq x y with
        | isFalse h => isFalse (by intro hh; cases hh; exact h rfl)
        | isTrue h1 =>
          match JVal.decEqObj xs ys with
          | isTrue h2 => isTrue (by rw [hk, h1, h2])
          | isFalse h => isFalse (by intro hh; cases hh; exact h rfl)

end

instance : DecidableEq JVal := JVal.decEq

instance {ε α : Type} [DecidableEq ε] [DecidableEq α] : DecidableEq (Except ε α) :=
  fun a b =>
  match a, b with
  | .ok x, .ok y =>
      match inferInstanceAs (Decidable (x = y)) with
      | isTrue h => isTrue (by rw [h])
      | isFalse h => isFalse (by intro hh; cases hh; exact h rfl)
  | .error x, .error y =>
      match inferInstanceAs (Decidable (x = y)) with
      | isTrue h => isTrue (by rw [h])
      | isFalse h => isFalse (by intro hh; cases hh; exact h rfl)
  | .ok _, .error _ => isFalse (fun h => Except.noConfusion h)
  | .error _, .ok _ => isFalse (fun h => Except.noConfusion h)

/-- Python truthiness of a `JVal`. -/
def JVal.truthy : JVal → Bool
  | .jnull => false
  | .jbool b => b
  | .jint n => decide (n ≠ 0)
  | .jrat q => decide (q ≠ 0)
  | .jstr s => decide (s ≠ "")
  | .jarr xs => !xs.isEmpty
  | .jobj kvs => !kvs.isEmpty

namespace Py

/-- Python `x or d` where `x` is a `dict.get` result (`None` when the key is
missing): the value itself when truthy, the default otherwise. -/
def orDefault (x : Option JVal) (d : JVal) : JVal :=
  match x with
  | some v => if v.truthy then v else d
  | none => d

/-- `some v` exactly when the optional value is present and truthy: the
combined `x = o.get(k)` / `if not x:` pattern of the scripts. -/
def truthyOpt (x : Option JVal) : Option JVal :=
  match x with
  | some v => if v.truthy then some v else none
  | none => none

/-- An `Option String` is Python-falsy when it is `None` or empty. -/
def notFalsy (x : Option String) : Option String :=
  match x with
  | some s => if s = "" then none else some s
  | none => none

def digitsToNat (l : List Char) : Nat :=
  l.foldl (fun a c => a * 10 + (c.toNat - 48)) 0

/-- Python `int(s)` on a string: optional surrounding whitespace, optional
sign, one or more decimal digits; anything else raises. -/
def parsePyInt (s : String) : Option Int :=
  let l := pyStripL s.data
  match l with
  | '-' :: ds => if ds ≠ [] ∧ ds.all Char.isDigit then some (-(digitsToNat ds : Int)) else none
  | '+' :: ds => if ds ≠ [] ∧ ds.all Char.isDigit then some (digitsToNat ds : Int) else none
  | ds => if ds ≠ [] ∧ ds.all Char.isDigit then some (digitsToNat ds : Int) else none

/-- Python `float(s)` on a string: optional sign, decimal digits with an
optional fractional part (exponents are not used by these datasets). -/
def parsePyFloat (s : String) : Option Rat :=
  let l := pyStripL s.data
  let signed : Int × List Char :=
    match l with
    | '-' :: r => (-1, r)
    | '+' :: r => (1, r)
    | r => (1, r)
  let ip := signed.2.takeWhile Char.isDigit
  let rest := signed.2.dropWhile Char.isDigit
  match rest with
  | [] => if ip ≠ [] then some ((signed.1 * digitsToNat ip : Int) : Rat) else none
  | '.' :: fp =>
      if (ip ≠ [] ∨ fp ≠ []) ∧ fp.all Char.isDigit then
        some ((signed.1 : Rat) * ((digitsToNat ip : Rat) +
          (digitsToNat fp : Rat) / ((10 : Rat) ^ fp.length)))
      else none
  | _ => none

/-- Python `int()` applied to a float: truncation toward zero. -/
def truncRat (q : Rat) : Int := q.num.tdiv q.den

/-- Python `int(v)`; `.error ()` models the `TypeError`/`ValueError` raise. -/
def pyInt : JVal → Except Unit Int
  | .jint n => .ok n
  | .jrat q => .ok (truncRat q)
  | .jbool b => .ok (if b then 1 else 0)
  | .jstr s =>
      match parsePyInt s with
      | some n => .ok n
      | none => .error ()
  | _ => .error ()

/-- Python `float(v)`; `.error ()` models the raise. -/
def pyFloat : JVal → Except Unit Rat
  | .jint n => .ok (n : Rat)
  | .jrat q => .ok q
  | .jbool b => .ok (if b then 1 else 0)
  | .jstr s =>
      match parsePyFloat s with
      | some q => .ok q
      | none => .error ()
  | _ => .error ()

/-- Python `str(v)` (container rendering abbreviated; the scripts only apply
it to identifiers that are strings or numbers). -/
def pyStr : JVal → String
  | .jnull => "None"
  | .jbool b => if b then "True" else "False"
  | .jint n => toString n
  | .jrat q => toString q
  | .jstr s => s
  | .jarr _ => "[...]"
  | .jobj _ => "..."

/-- The `(x or {}).get(k)` pattern: a falsy receiver is replaced by the empty
dict, a truthy non-dict receiver raises `AttributeError`. -/
def getOrEmptyJ (v : JVal) (k : String) : Except Unit (Option JVal) :=
  if v.truthy then
    match v with
    | .jobj kvs => .ok (List.lookup k kvs)
    | _ => .error ()
  else .ok none

/-- The `(o.get(f) or {}).get(k)` pattern on an optional receiver. -/
def getOrEmptyO (x : Option JVal) (k : String) : Except Unit (Option JVal) :=
  match x with
  | some v => getOrEmptyJ v k
  | none => .ok none

end Py

/-- A `dict.get` value stored into a row: `None` becomes a SQL null. -/
def jopt : Option JVal → JVal
  | some v => v
  | none => .jnull

/-- Canonical-location lookup: the static site-id tables are keyed by
strings, so a missing field or a non-string site id finds no entry. -/
def lookupCanon (table : List (String × String)) (x : Option JVal) : Option String :=
  match x with
  | some (.jstr s) => List.lookup s table
  | _ => none

/-- Python `str.lower` on a whole string. -/
def pyLowerStr (s : String) : String := ⟨s.data.map pyLower⟩

end Ingest

namespace Ingest

/-- One canonical Order row as built by the three scripts (`order_payload`).
The `location_id` is the store-assigned identifier returned by the location
bootstrap, passed to the adapters as the per-run `loc_id` mapping. -/
structure OrderPayload where
  source : String
  source_detail : JVal
  source_order_id : JVal
  location_id : Nat
  ordered_at : JVal
  fulfillment : JVal
  item_sales_cents : Int
  tax_cents : Int
  tip_cents : Int
  fees_cents : Int
  total_cents : Int
deriving DecidableEq

/-- One canonical OrderItem row (`item_rows` entries, before the writer adds
the owning `order_id`). -/
structure OrderItemRow where
  raw_name : JVal
  normalized_name : String
  raw_category : JVal
  normalized_category : String
  quantity : Rat
  unit_price_cents : Option Int
  line_total_cents : Int
deriving DecidableEq

/-- `normalize_name` applied to a raw Python value: a falsy value is replaced
by `""` inside the function, a truthy non-string raises `AttributeError`. -/
def normNameJ (v : JVal) : Except Unit String :=
  match v with
  | .jstr s => .ok (normalize_name s)
  | v => if v.truthy then .error () else .ok (normalize_name "")

/-- `normalize_category` applied to a raw Python value (possibly `None`). -/
def normCatJ (x : Option JVal) : Except Unit String :=
  match x with
  | some (.jstr s) => .ok (normalize_category s)
  | some v => if v.truthy then .error () else .ok (normalize_category "")
  | none => .ok (normalize_category "")

/-- Sequential processing of a list where each element either errors (the
run aborts), is skipped, or yields a result. -/
def runList (f : α → Except Unit (Option β)) : List α → Except Unit (List β)
  | [] => .ok []
  | a :: l =>
    match f a with
    | .error e => .error e
    | .ok none => runList f l
    | .ok (some b) =>
      match runList f l with
      | .error e => .error e
      | .ok bs => .ok (b :: bs)

/-- Sequential effectful map (the inner `for` loops building `item_rows`). -/
def mapExcept (f : α → Except Unit β) : List α → Except Unit (List β)
  | [] => .ok []
  | a :: l =>
    match f a with
    | .error e => .error e
    | .ok b =>
      match mapExcept f l with
      | .error e => .error e
      | .ok bs => .ok (b :: bs)

namespace Doordash

/-- Static site-id table `DD_LOC_TO_CANON` of `ingest_doordash.py`. -/
def DD_LOC_TO_CANON : List (String × String) :=
  [("str_downtown_001", "Downtown"), ("str_airport_002", "Airport"),
   ("str_mall_003", "Mall"), ("str_university_004", "University")]

structure DDItem where
  name : Option JVal
  category : Option JVal
  quantity : Option JVal
  unit_price : Option JVal
  total_price : Option JVal
deriving DecidableEq

structure DDOrder where
  store_id : Option JVal
  created_at : Option JVal
  order_fulfillment_method : Option JVal
  order_subtotal : Option JVal
  tax_amount : Option JVal
  dasher_tip : Option JVal
  delivery_fee : Option JVal
  service_fee : Option JVal
  total_charged_to_consumer : Option JVal
  external_delivery_id : Option JVal
  id : Option JVal
  order_items : List DDItem
deriving DecidableEq

/-- `to_int_cents` of `ingest_doordash.py`: `try: int(x or 0) except: 0`. -/
def to_int_cents (x : Option JVal) : Int :=
  match Py.pyInt (Py.orDefault x (.jint 0)) with
  | .ok n => n
  | .error _ => 0

/-- Body of the DoorDash item loop (lines 93-113). -/
def processItem (it : DDItem) : Except Unit OrderItemRow :=
  let raw_name := Py.orDefault it.name (.jstr "unknown")
  let raw_cat := it.category
  match Py.pyFloat (Py.orDefault it.quantity (.jint 1)) with
  | .error e => .error e
  | .ok qty =>
    let unit_price := to_int_cents it.unit_price
    let line_total0 := to_int_cents it.total_price
    let line_total : Int :=
      if line_total0 = 0 ∧ unit_price ≠ 0 then Py.truncRat ((unit_price : Rat) * qty)
      else line_total0
    match normNameJ raw_name with
    | .error e => .error e
    | .ok nn =>
      match normCatJ raw_cat with
      | .error e => .error e
      | .ok nc =>
        .ok { raw_name := raw_name, normalized_name := nn, raw_category := jopt raw_cat,
              normalized_category := nc, quantity := qty,
              unit_price_cents := if unit_price = 0 then none else some unit_price,
              line_total_cents := line_total }

/-- Body of the DoorDash order loop (lines 40-116) up to the canonical
records handed to the writer; `.ok none` is the silent skip (`continue`). -/
def process (locId : String → Nat) (o : DDOrder) :
    Except Unit (Option (OrderPayload × List OrderItemRow)) :=
  match Py.notFalsy (lookupCanon DD_LOC_TO_CANON o.store_id) with
  | none => .ok none
  | some canon_loc =>
    match Py.truthyOpt o.created_at with
    | none => .ok none
    | some ordered_at =>
      let fulfillment := Py.orDefault o.order_fulfillment_method (.jstr "UNKNOWN")
      let item_sales := to_int_cents o.order_subtotal
      let tax := to_int_cents o.tax_amount
      let tip := to_int_cents o.dasher_tip
      let delivery_fee := to_int_cents o.delivery_fee
      let service_fee := to_int_cents o.service_fee
      let fees := delivery_fee + service_fee
      let total0 := to_int_cents o.total_charged_to_consumer
      let total := if total0 = 0 then item_sales + tax + tip + fees else total0
      let soid :=
        match Py.truthyOpt o.external_delivery_id with
        | some v => some v
        | none => o.id
      match Py.truthyOpt soid with
      | none => .ok none
      | some source_order_id =>
        match mapExcept processItem o.order_items with
        | .error e => .error e
        | .ok rows =>
        .ok (some
          ({ source := "DOORDASH", source_detail := .jstr "DOORDASH",
             source_order_id := .jstr (Py.pyStr source_order_id),
             location_id := locId canon_loc, ordered_at := ordered_at,
             fulfillment := fulfillment, item_sales_cents := item_sales,
             tax_cents := tax, tip_cents := tip, fees_cents := fees,
             total_cents := total }, rows))

/-- The whole DoorDash ingestion loop over the document's `orders` list. -/
def runOrders (locId : String → Nat) (orders : List DDOrder) :
    Except Unit (List (OrderPayload × List OrderItemRow)) :=
  runList (process locId) orders

end Doordash

end Ingest

namespace Ingest

namespace Square

/-- Static site-id table `SQUARE_LOC_TO_CANON` of `ingest_square.py`. -/
def SQUARE_LOC_TO_CANON : List (String × String) :=
  [("LCN001DOWNTOWN", "Downtown"), ("LCN002AIRPORT", "Airport"),
   ("LCN003MALL", "Mall"), ("LCN004UNIV", "University")]

/-- A nested variation record of a catalog `ITEM` object (`v["id"]` is
required by the script; names are the strings of the catalog document). -/
structure SqVariation where
  id : String
  name : Option String
deriving DecidableEq

/-- One record of the catalog document's `objects` list; objects of any
other `type` are ignored by `build_catalog_maps`. -/
inductive CatalogObject where
  | category (id : String) (name : Option String)
  | item (id : String) (name : Option String) (category_id : Option String)
      (variations : List SqVariation)
  | other
deriving DecidableEq

/-- Value of the flat `variation_map` built by `build_catalog_maps`. -/
structure VarEntry where
  item_name : Option String
  variation_name : Option String
  category_name : Option String
deriving DecidableEq

/-- One step of the `category_names` dict build (dict assignment: the later
entry for an id wins). -/
def catNamesStep (acc : String → Option (Option String)) (obj : CatalogObject) :
    String → Option (Option String) :=
  match obj with
  | .category i n => Function.update acc i (some n)
  | _ => acc

/-- The `category_names` dict: category id to (possibly missing) name. -/
def catNames (objs : List CatalogObject) : String → Option (Option String) :=
  objs.foldl catNamesStep (fun _ => none)

/-- One step of the `items` dict build. -/
def itemsStep (acc : String → Option (Option String × Option String))
    (obj : CatalogObject) : String → Option (Option String × Option String) :=
  match obj with
  | .item i n cid _ => Function.update acc i (some (n, cid))
  | _ => acc

/-- The `items` dict: item id to `(name, category_id)`. -/
def itemsMap (objs : List CatalogObject) :
    String → Option (Option String × Option String) :=
  objs.foldl itemsStep (fun _ => none)

/-- One assignment of the `variations` dict build, for a variation nested
under the item with id `i`. -/
def varStep (i : String) (acc : String → Option (Option String × String))
    (v : SqVariation) : String → Option (Option String × String) :=
  Function.update acc v.id (some (v.name, i))

/-- One step of the `variations` dict build. -/
def variationsStep (acc : String → Option (Option String × String))
    (obj : CatalogObject) : String → Option (Option String × String) :=
  match obj with
  | .item i _ _ vars => vars.foldl (varStep i) acc
  | _ => acc

/-- The `variations` dict: variation id to `(variation_name, item_id)`. -/
def variationsMap (objs : List CatalogObject) :
    String → Option (Option String × String) :=
  objs.foldl variationsStep (fun _ => none)

/-- `build_catalog_maps` of `ingest_square.py`: the flat
variation-id to `{item_name, variation_name, category_name}` map; missing
links degrade to `None` fields exactly as the dict `.get` chains do. -/
def build_catalog_maps (objs : List CatalogObject) : String → Option VarEntry :=
  fun var_id =>
    match variationsMap objs var_id with
    | none => none
    | some (vname, item_id) =>
      let item := itemsMap objs item_id
      let item_name : Option String :=
        match item with
        | some (n, _) => n
        | none => none
      let cat_id : Option String :=
        match item with
        | some (_, cid) => cid
        | none => none
      let cat_name : Option String :=
        match cat_id with
        | some cid =>
          match catNames objs cid with
          | some n => n
          | none => none
        | none => none
      some { item_name := item_name, variation_name := vname, category_name := cat_name }

structure SqLineItem where
  quantity : Option JVal
  name : Option JVal
  catalog_object_id : Option JVal
  total_money : Option JVal
  gross_sales_money : Option JVal
deriving DecidableEq

structure SqOrder where
  location_id : Option JVal
  closed_at : Option JVal
  created_at : Option JVal
  fulfillments : Option JVal
  total_money : Option JVal
  total_tax_money : Option JVal
  total_tip_money : Option JVal
  source : Option JVal
  id : Option JVal
  line_items : List SqLineItem
deriving DecidableEq

/-- `to_int_cents` of `ingest_square.py`: a falsy money object yields `0`,
otherwise `int(money_obj.get("amount") or 0)`; a truthy non-dict raises. -/
def to_int_cents (money_obj : Option JVal) : Except Unit Int :=
  match money_obj with
  | none => .ok 0
  | some v =>
    if v.truthy then
      match v with
      | .jobj kvs => Py.pyInt (Py.orDefault (List.lookup "amount" kvs) (.jint 0))
      | _ => .error ()
    else .ok 0

/-- Name/category resolution for one line item (lines 140-150): inline name,
else catalog item name, else `"unknown"`; a truthy non-default variation
name is appended as `"<name> - <variation>"`; category from the catalog. -/
def resolveNameCat (vm : String → Option VarEntry) (li : SqLineItem) : JVal × JVal :=
  let cat : VarEntry :=
    match li.catalog_object_id with
    | some (.jstr s) => (vm s).getD ⟨none, none, none⟩
    | _ => ⟨none, none, none⟩
  let raw_name0 : JVal :=
    match Py.truthyOpt li.name with
    | some v => v
    | none =>
      match cat.item_name with
      | some n => if n = "" then .jstr "unknown" else .jstr n
      | none => .jstr "unknown"
  let raw_name : JVal :=
    match cat.variation_name with
    | some vn =>
        if vn ≠ "" ∧ pyLowerStr vn ≠ "regular" ∧ pyLowerStr vn ≠ "default" then
          .jstr (Py.pyStr raw_name0 ++ " - " ++ vn)
        else raw_name0
    | none => raw_name0
  let raw_cat : JVal :=
    match cat.category_name with
    | some c => .jstr c
    | none => .jnull
  (raw_name, raw_cat)

/-- The line-total fallback (lines 152-154): `total_money`, else
`gross_sales_money` when the former coerces to `0`. -/
def lineTotalOf (li : SqLineItem) : Except Unit Int :=
  match to_int_cents (some (Py.orDefault li.total_money (.jobj []))) with
  | .error e => .error e
  | .ok lt0 => if lt0 = 0 then to_int_cents li.gross_sales_money else .ok lt0

/-- Body of the Square line-item loop (lines 137-169). -/
def processItem (vm : String → Option VarEntry) (li : SqLineItem) :
    Except Unit OrderItemRow :=
  match Py.pyFloat (Py.orDefault li.quantity (.jint 1)) with
  | .error e => .error e
  | .ok qty =>
    let rn := resolveNameCat vm li
    match lineTotalOf li with
    | .error e => .error e
    | .ok line_total =>
      let unit_price : Option Int :=
        if qty ≠ 0 ∧ line_total ≠ 0 then some (Py.truncRat ((line_total : Rat) / qty))
        else none
      match normNameJ rn.1 with
      | .error e => .error e
      | .ok nn =>
        match normCatJ (some rn.2) with
        | .error e => .error e
        | .ok nc =>
          .ok { raw_name := rn.1, normalized_name := nn, raw_category := rn.2,
                normalized_category := nc, quantity := qty,
                unit_price_cents := unit_price, line_total_cents := line_total }

/-- The order timestamp (line 94): `o.get("closed_at") or o.get("created_at")`
combined with the falsiness skip test. -/
def orderedAtOf (o : SqOrder) : Option JVal :=
  match Py.truthyOpt o.closed_at with
  | some v => some v
  | none => Py.truthyOpt o.created_at

/-- The fulfillment resolution (lines 98-101): type of the first entry of a
truthy fulfillments list, default `"UNKNOWN"`. -/
def fulfillmentOf (o : SqOrder) : Except Unit JVal :=
  match Py.orDefault o.fulfillments (.jarr []) with
  | .jarr (f :: _) =>
      (match Py.getOrEmptyJ f "type" with
       | .error e => .error e
       | .ok t => .ok (Py.orDefault t (.jstr "UNKNOWN")))
  | _ => .ok (.jstr "UNKNOWN")

/-- Body of the Square order loop (lines 88-172); `.ok none` is the silent
skip. Note the missing-id skip runs after the money coercions, as in the
script. -/
def process (vm : String → Option VarEntry) (locId : String → Nat) (o : SqOrder) :
    Except Unit (Option (OrderPayload × List OrderItemRow)) :=
  match Py.notFalsy (lookupCanon SQUARE_LOC_TO_CANON o.location_id) with
  | none => .ok none
  | some canon_loc =>
    match orderedAtOf o with
    | none => .ok none
    | some ordered_at =>
      match fulfillmentOf o with
      | .error e => .error e
      | .ok fulfillment =>
      match to_int_cents o.total_money with
      | .error e => .error e
      | .ok item_sales =>
      match to_int_cents o.total_tax_money with
      | .error e => .error e
      | .ok tax =>
      match to_int_cents o.total_tip_money with
      | .error e => .error e
      | .ok tip =>
      match to_int_cents o.total_money with
      | .error e => .error e
      | .ok total0 =>
      let total := if total0 = 0 then item_sales + tax + tip else total0
      match Py.truthyOpt o.id with
      | none => .ok none
      | some soid =>
        match Py.getOrEmptyO o.source "name" with
        | .error e => .error e
        | .ok sname =>
        let source_detail := Py.orDefault sname (.jstr "SQUARE")
        match mapExcept (processItem vm) o.line_items with
        | .error e => .error e
        | .ok rows =>
        .ok (some
          ({ source := "SQUARE", source_detail := source_detail,
             source_order_id := .jstr (Py.pyStr soid),
             location_id := locId canon_loc, ordered_at := ordered_at,
             fulfillment := fulfillment, item_sales_cents := item_sales,
             tax_cents := tax, tip_cents := tip, fees_cents := 0,
             total_cents := total }, rows))

/-- The whole Square ingestion loop over the document's `orders` list. -/
def runOrders (vm : String → Option VarEntry) (locId : String → Nat)
    (orders : List SqOrder) :
    Except Unit (List (OrderPayload × List OrderItemRow)) :=
  runList (process vm locId) orders

end Square

end Ingest

namespace Ingest

namespace Toast

/-- Static site-id table `TOAST_LOC_TO_CANON` of `ingest_toast.py`. -/
def TOAST_LOC_TO_CANON : List (String × String) :=
  [("loc_downtown_001", "Downtown"), ("loc_airport_002", "Airport"),
   ("loc_mall_003", "Mall"), ("loc_univ_004", "University")]

structure ToastSel where
  displayName : Option JVal
  item : Option JVal
  itemGroup : Option JVal
  quantity : Option JVal
  price : Option JVal
deriving DecidableEq

structure ToastCheck where
  amount : Option JVal
  taxAmount : Option JVal
  tipAmount : Option JVal
  totalAmount : Option JVal
  selections : List ToastSel
deriving DecidableEq

structure ToastOrder where
  restaurantGuid : Option JVal
  paidDate : Option JVal
  closedDate : Option JVal
  openedDate : Option JVal
  diningOption : Option JVal
  source : Option JVal
  guid : Option JVal
  checks : List ToastCheck
deriving DecidableEq

/-- `pick_ordered_at` of `ingest_toast.py`:
`o.get("paidDate") or o.get("closedDate") or o.get("openedDate")` (the
first truthy value, else the last field's value). -/
def pick_ordered_at (o : ToastOrder) : Option JVal :=
  match Py.truthyOpt o.paidDate with
  | some v => some v
  | none =>
    match Py.truthyOpt o.closedDate with
    | some v => some v
    | none => o.openedDate

/-- The `int(x or 0)` coercion used on the check money fields (no
`try/except`: a truthy unparseable value raises). -/
def intOr0 (x : Option JVal) : Except Unit Int :=
  Py.pyInt (Py.orDefault x (.jint 0))

/-- Body of the selections loop (lines 57-71). The `or` chain for the name
short-circuits: the `(sel.get("item") or {}).get("name")` lookup only runs
when `displayName` is falsy. -/
def processSel (sel : ToastSel) : Except Unit OrderItemRow :=
  match
    (match Py.truthyOpt sel.displayName with
     | some v => .ok v
     | none =>
        (match Py.getOrEmptyO sel.item "name" with
         | .error e => .error e
         | .ok itemName => .ok (Py.orDefault itemName (.jstr "unknown"))
         : Except Unit JVal)
     : Except Unit JVal) with
  | .error e => .error e
  | .ok raw_name =>
  match Py.getOrEmptyO sel.itemGroup "name" with
  | .error e => .error e
  | .ok raw_cat =>
  match Py.pyFloat (Py.orDefault sel.quantity (.jint 1)) with
  | .error e => .error e
  | .ok qty =>
  match Py.pyInt (Py.orDefault sel.price (.jint 0)) with
  | .error e => .error e
  | .ok line_total =>
  match normNameJ raw_name with
  | .error e => .error e
  | .ok nn =>
  match normCatJ raw_cat with
  | .error e => .error e
  | .ok nc =>
    .ok { raw_name := raw_name, normalized_name := nn, raw_category := jopt raw_cat,
          normalized_category := nc, quantity := qty,
          unit_price_cents := none, line_total_cents := line_total }

/-- Running totals and item rows accumulated by the checks loop. -/
structure ChecksAcc where
  item_sales : Int
  tax : Int
  tip : Int
  total : Int
  rows : List OrderItemRow
deriving DecidableEq

/-- Body of the checks loop for one check (lines 51-71). -/
def processCheck (chk : ToastCheck) : Except Unit ChecksAcc :=
  match intOr0 chk.amount with
  | .error e => .error e
  | .ok a =>
  match intOr0 chk.taxAmount with
  | .error e => .error e
  | .ok tx =>
  match intOr0 chk.tipAmount with
  | .error e => .error e
  | .ok tp =>
  match intOr0 chk.totalAmount with
  | .error e => .error e
  | .ok tt =>
  match mapExcept processSel chk.selections with
  | .error e => .error e
  | .ok rows =>
    .ok { item_sales := a, tax := tx, tip := tp, total := tt, rows := rows }

/-- The whole checks loop: sums accumulate left to right, item rows are
appended in order. -/
def sumChecks : List ToastCheck → Except Unit ChecksAcc
  | [] => .ok { item_sales := 0, tax := 0, tip := 0, total := 0, rows := [] }
  | c :: cs =>
    match processCheck c with
    | .error e => .error e
    | .ok r =>
      match sumChecks cs with
      | .error e => .error e
      | .ok rest =>
        .ok { item_sales := r.item_sales + rest.item_sales, tax := r.tax + rest.tax,
              tip := r.tip + rest.tip, total := r.total + rest.total,
              rows := r.rows ++ rest.rows }

/-- Body of the Toast order loop (lines 36-101); `.ok none` is the silent
skip. The required `o["guid"]` lookup happens at payload construction, after
the checks loop: a missing `guid` raises `KeyError` (run aborts) instead of
skipping. -/
def process (locId : String → Nat) (o : ToastOrder) :
    Except Unit (Option (OrderPayload × List OrderItemRow)) :=
  match Py.notFalsy (lookupCanon TOAST_LOC_TO_CANON o.restaurantGuid) with
  | none => .ok none
  | some canon_loc =>
    match Py.truthyOpt (pick_ordered_at o) with
    | none => .ok none
    | some ordered_at =>
      match Py.getOrEmptyO o.diningOption "behavior" with
      | .error e => .error e
      | .ok behavior =>
      let fulfillment := Py.orDefault behavior (.jstr "UNKNOWN")
      let source_detail := Py.orDefault o.source (.jstr "TOAST")
      match sumChecks o.checks with
      | .error e => .error e
      | .ok acc =>
      match o.guid with
      | none => .error ()
      | some g =>
        .ok (some
          ({ source := "TOAST", source_detail := source_detail,
             source_order_id := g, location_id := locId canon_loc,
             ordered_at := ordered_at, fulfillment := fulfillment,
             item_sales_cents := acc.item_sales, tax_cents := acc.tax,
             tip_cents := acc.tip, fees_cents := 0,
             total_cents :=
               if acc.total ≠ 0 then acc.total
               else acc.item_sales + acc.tax + acc.tip }, acc.rows))

/-- The whole Toast ingestion loop over the document's `orders` list. -/
def runOrders (locId : String → Nat) (orders : List ToastOrder) :
    Except Unit (List (OrderPayload × List OrderItemRow)) :=
  runList (process locId) orders

end Toast

end Ingest

namespace Ingest

namespace Writer

/-- State of the relational store as the scripts see it: the orders table
(conflict key to store-assigned id, id to row payload), the order_items
table grouped by owning order id, and the store's next fresh id. -/
structure Store where
  idOf : String × JVal → Option Nat
  payloads : Nat → Option OrderPayload
  items : Nat → List OrderItemRow
  nextId : Nat

/-- The idempotency key `(source, source_order_id)`. -/
def upsertKey (p : OrderPayload) : String × JVal := (p.source, p.source_order_id)

/-- The per-order write sequence each script performs: (1) upsert the Order
row on conflict key `(source, source_order_id)`, (2) select the
store-assigned id back, (3) delete all OrderItem rows for that id,
(4) bulk-insert the new rows, skipping the insert when the list is empty. -/
def writeOrder (s : Store) (p : OrderPayload) (rows : List OrderItemRow) : Store :=
  match s.idOf (upsertKey p) with
  | some i =>
      let afterDel := Function.update s.items i []
      { s with
        payloads := Function.update s.payloads i (some p),
        items := if rows.isEmpty then afterDel else Function.update afterDel i rows }
  | none =>
      let i := s.nextId
      let afterDel := Function.update s.items i []
      { idOf := Function.update s.idOf (upsertKey p) (some i),
        payloads := Function.update s.payloads i (some p),
        items := if rows.isEmpty then afterDel else Function.update afterDel i rows,
        nextId := s.nextId + 1 }

/-- A full writer run over the canonical records produced by an adapter. -/
def runWriter (s : Store) : List (OrderPayload × List OrderItemRow) → Store
  | [] => s
  | pr :: l => runWriter (writeOrder s pr.1 pr.2) l

/-- Store sanity: assigned ids are below the allocation counter and no two
distinct keys share an id. -/
def WF (s : Store) : Prop :=
  (∀ k i, s.idOf k = some i → i < s.nextId) ∧
  (∀ k1 k2 i, s.idOf k1 = some i → s.idOf k2 = some i → k1 = k2)

/-- The empty store. -/
def emptyStore : Store :=
  { idOf := fun _ => none, payloads := fun _ => none, items := fun _ => [],
    nextId := 0 }

end Writer

end Ingest

namespace Ingest

/-! ### Concrete documents used by the witnesses and counterexamples -/

/-- The spec's marketplace scenario order: subtotal 1000, tax 80, tip 200,
delivery fee 300, service fee 100, reported total 0. -/
def ddScenOrder : Doordash.DDOrder :=
  { store_id := some (.jstr "str_downtown_001"),
    created_at := some (.jstr "2024-01-01T00:00:00Z"),
    order_fulfillment_method := some (.jstr "DELIVERY"),
    order_subtotal := some (.jint 1000), tax_amount := some (.jint 80),
    dasher_tip := some (.jint 200), delivery_fee := some (.jint 300),
    service_fee := some (.jint 100), total_charged_to_consumer := some (.jint 0),
    external_delivery_id := some (.jstr "D-1"), id := none, order_items := [] }

/-- Projection of an adapter result to `(fees_cents, total_cents)`. -/
def feesTotalOf : Except Unit (Option (OrderPayload × List OrderItemRow)) →
    Option (Int × Int)
  | .ok (some (p, _)) => some (p.fees_cents, p.total_cents)
  | _ => none

/-- The spec's catalog scenario: category "Coffee" → item "Latte" with a
"Regular" variation `V1` and an "Oat" variation `V2`. -/
def catScen : List Square.CatalogObject :=
  [ .category "C1" (some "Coffee"),
    .item "I1" (some "Latte") (some "C1") [⟨"V1", some "Regular"⟩, ⟨"V2", some "Oat"⟩] ]

/-- Retail-terminal line item with no inline name referencing the "Regular"
variation. -/
def liLatteRegular : Square.SqLineItem :=
  { quantity := some (.jint 2), name := none, catalog_object_id := some (.jstr "V1"),
    total_money := some (.jobj [("amount", .jint 500)]), gross_sales_money := none }

/-- Line item carrying an inline name while also referencing the "Oat"
variation of catalog item "Latte". -/
def liMochaInline : Square.SqLineItem :=
  { quantity := some (.jint 1), name := some (.jstr "Mocha"),
    catalog_object_id := some (.jstr "V2"),
    total_money := some (.jobj [("amount", .jint 650)]), gross_sales_money := none }

/-- Line item whose reported line total is present and zero, quantity 2. -/
def liZeroTotal : Square.SqLineItem :=
  { quantity := some (.jint 2), name := some (.jstr "X"), catalog_object_id := none,
    total_money := some (.jobj [("amount", .jint 0)]),
    gross_sales_money := some (.jobj [("amount", .jint 0)]) }

/-- Retail-terminal order whose reported total is zero. -/
def sqZeroOrder : Square.SqOrder :=
  { location_id := some (.jstr "LCN001DOWNTOWN"), closed_at := some (.jstr "2024-01-02"),
    created_at := none, fulfillments := none,
    total_money := some (.jobj [("amount", .jint 0)]),
    total_tax_money := some (.jobj [("amount", .jint 70)]),
    total_tip_money := some (.jobj [("amount", .jint 30)]),
    source := none, id := some (.jstr "SQ-1"), line_items := [] }

/-- Retail-terminal order whose reported total is non-zero. -/
def sqTotalOrder : Square.SqOrder :=
  { location_id := some (.jstr "LCN002AIRPORT"), closed_at := some (.jstr "2024-01-03"),
    created_at := none, fulfillments := none,
    total_money := some (.jobj [("amount", .jint 1500)]),
    total_tax_money := some (.jobj [("amount", .jint 100)]),
    total_tip_money := some (.jobj [("amount", .jint 50)]),
    source := none, id := some (.jstr "SQ-2"), line_items := [] }

/-- Restaurant-terminal order with a mapped site and a usable timestamp but
no `guid` key. -/
def toastNoGuid : Toast.ToastOrder :=
  { restaurantGuid := some (.jstr "loc_downtown_001"),
    paidDate := some (.jstr "2024-01-04"), closedDate := none, openedDate := none,
    diningOption := none, source := none, guid := none, checks := [] }

def toastCheckA : Toast.ToastCheck :=
  { amount := some (.jint 500), taxAmount := some (.jint 40), tipAmount := none,
    totalAmount := none, selections := [] }

def toastCheckB : Toast.ToastCheck :=
  { amount := some (.jint 500), taxAmount := none, tipAmount := none,
    totalAmount := none, selections := [] }

/-- Restaurant-terminal order with two checks of amount 500 each and no
reported aggregate total. -/
def toastTwoChecks : Toast.ToastOrder :=
  { restaurantGuid := some (.jstr "loc_downtown_001"),
    paidDate := some (.jstr "2024-01-04"), closedDate := none, openedDate := none,
    diningOption := none, source := none, guid := some (.jstr "G-1"),
    checks := [toastCheckA, toastCheckB] }

/-- A marketplace order whose site id has no entry in the mapping table. -/
def ddBadSite : Doordash.DDOrder :=
  { ddScenOrder with store_id := some (.jstr "str_elsewhere_999") }

/-- A retail-terminal order whose site id has no entry in the mapping table. -/
def sqBadSite : Square.SqOrder :=
  { sqZeroOrder with location_id := some (.jstr "LCN999NOWHERE") }

/-- A restaurant-terminal order with a mapped site but no usable timestamp. -/
def toastNoStamp : Toast.ToastOrder :=
  { toastTwoChecks with
      paidDate := none, closedDate := some (.jstr ""), openedDate := none }

/-- The payload the marketplace adapter produces for `ddScenOrder` (with
the location map sending every canonical name to `0`). -/
def ddScenPayload : OrderPayload :=
  { source := "DOORDASH", source_detail := .jstr "DOORDASH",
    source_order_id := .jstr "D-1", location_id := 0,
    ordered_at := .jstr "2024-01-01T00:00:00Z", fulfillment := .jstr "DELIVERY",
    item_sales_cents := 1000, tax_cents := 80, tip_cents := 200, fees_cents := 400,
    total_cents := 1680 }

/-- The payload the retail-terminal adapter produces for `sqZeroOrder`. -/
def sqZeroPayload : OrderPayload :=
  { source := "SQUARE", source_detail := .jstr "SQUARE",
    source_order_id := .jstr "SQ-1", location_id := 0,
    ordered_at := .jstr "2024-01-02", fulfillment := .jstr "UNKNOWN",
    item_sales_cents := 0, tax_cents := 70, tip_cents := 30, fees_cents := 0,
    total_cents := 100 }

/-- The payload the retail-terminal adapter produces for `sqTotalOrder`. -/
def sqTotalPayload : OrderPayload :=
  { source := "SQUARE", source_detail := .jstr "SQUARE",
    source_order_id := .jstr "SQ-2", location_id := 0,
    ordered_at := .jstr "2024-01-03", fulfillment := .jstr "UNKNOWN",
    item_sales_cents := 1500, tax_cents := 100, tip_cents := 50, fees_cents := 0,
    total_cents := 1500 }

/-- The payload the restaurant-terminal adapter produces for
`toastTwoChecks`. -/
def toastTwoPayload : OrderPayload :=
  { source := "TOAST", source_detail := .jstr "TOAST",
    source_order_id := .jstr "G-1", location_id := 0,
    ordered_at := .jstr "2024-01-04", fulfillment := .jstr "UNKNOWN",
    item_sales_cents := 1000, tax_cents := 40, tip_cents := 0, fees_cents := 0,
    total_cents := 1040 }

/-- The checks accumulator for `toastTwoChecks`. -/
def toastTwoAcc : Toast.ChecksAcc :=
  { item_sales := 1000, tax := 40, tip := 0, total := 0, rows := [] }

/-- The row the retail-terminal adapter produces for `liLatteRegular`
against `catScen`. -/
def liLatteRow : OrderItemRow :=
  { raw_name := .jstr "Latte", normalized_name := "latte",
    raw_category := .jstr "Coffee", normalized_category := "coffee",
    quantity := ((2 : Int) : Rat),
    unit_price_cents := some (Py.truncRat (((500 : Int) : Rat) / ((2 : Int) : Rat))),
    line_total_cents := 500 }

/-- A canonical payload used to exercise the writer. -/
def demoPayload : OrderPayload :=
  { source := "DOORDASH", source_detail := .jstr "DOORDASH",
    source_order_id := .jstr "D-1", location_id := 1,
    ordered_at := .jstr "2024-01-01T00:00:00Z", fulfillment := .jstr "DELIVERY",
    item_sales_cents := 1000, tax_cents := 80, tip_cents := 200, fees_cents := 400,
    total_cents := 1680 }

def demoPayload2 : OrderPayload :=
  { demoPayload with
      source := "TOAST", source_order_id := .jstr "G-1",
      fees_cents := 0, total_cents := 1280 }

def demoRow : OrderItemRow :=
  { raw_name := .jstr "Latte", normalized_name := "latte", raw_category := .jstr "Coffee",
    normalized_category := "coffee", quantity := 2, unit_price_cents := some 250,
    line_total_cents := 500 }

/-- Canonical records of two orders, one with items and one without. -/
def demoRecords : List (OrderPayload × List OrderItemRow) :=
  [(demoPayload, [demoRow]), (demoPayload2, [])]

end Ingest

namespace Ingest

/-! ### Character-level lemmas for the text normalizer -/

theorem pyLower_eq_of_not (c : Char) (h : ¬(65 ≤ c.toNat ∧ c.toNat ≤ 90)) :
    pyLower c = c := by
  unfold pyLower
  exact if_neg h

theorem pyLower_toNat_of_upper (c : Char) (h : 65 ≤ c.toNat ∧ c.toNat ≤ 90) :
    (pyLower c).toNat = c.toNat + 32 := by
  unfold pyLower
  rw [if_pos h]
  unfold Char.ofNat
  split
  · rfl
  · rename_i hv
    exact absurd (Or.inl (by omega)) hv

theorem pyLower_pyLower (c : Char) : pyLower (pyLower c) = pyLower c := by
  by_cases h : 65 ≤ c.toNat ∧ c.toNat ≤ 90
  · have h1 := pyLower_toNat_of_upper c h
    exact pyLower_eq_of_not _ (by omega)
  · rw [pyLower_eq_of_not c h, pyLower_eq_of_not c h]

theorem toNat_pyLower_cases (c : Char) :
    (pyLower c).toNat = c.toNat + 32 ∨ (pyLower c).toNat = c.toNat := by
  by_cases h : 65 ≤ c.toNat ∧ c.toNat ≤ 90
  · exact Or.inl (pyLower_toNat_of_upper c h)
  · exact Or.inr (by rw [pyLower_eq_of_not c h])

theorem pyLower_bound (c : Char) :
    (pyLower c).toNat = c.toNat ∨ (97 ≤ (pyLower c).toNat ∧ (pyLower c).toNat ≤ 122) := by
  by_cases h : 65 ≤ c.toNat ∧ c.toNat ≤ 90
  · have h1 := pyLower_toNat_of_upper c h
    exact Or.inr (by omega)
  · exact Or.inl (by rw [pyLower_eq_of_not c h])

theorem isSymbolChar_pyLower (c : Char) (h : isSymbolChar c = false) :
    isSymbolChar (pyLower c) = false := by
  rcases pyLower_bound c with hb | hb
  · simp only [isSymbolChar, decide_eq_false_iff_not] at h ⊢
    intro hc
    exact h (by omega)
  · simp only [isSymbolChar, decide_eq_false_iff_not]
    intro hc
    omega

theorem pyIsSpace_pyLower (c : Char) (h : pyIsSpace c = false) :
    pyIsSpace (pyLower c) = false := by
  rcases pyLower_bound c with hb | hb
  · simp only [pyIsSpace, decide_eq_false_iff_not] at h ⊢
    intro hc
    exact h (by omega)
  · simp only [pyIsSpace, decide_eq_false_iff_not]
    intro hc
    omega

theorem pyLower_lt_bmp (c : Char) (h : c.toNat < 0x10000) :
    (pyLower c).toNat < 0x10000 := by
  rcases pyLower_bound c with hb | hb <;> omega

/-! ### Writer store lemmas -/

theorem Writer.Store.ext {s t : Store} (h1 : s.idOf = t.idOf) (h2 : s.payloads = t.payloads)
    (h3 : s.items = t.items) (h4 : s.nextId = t.nextId) : s = t := by
  cases s
  cases t
  simp_all

theorem Writer.WF_emptyStore : Writer.WF Writer.emptyStore :=
  ⟨fun _ _ h => by simp [Writer.emptyStore] at h, fun _ _ _ h => by simp [Writer.emptyStore] at h⟩

end Ingest

namespace Ingest

/-! ### Adapter payload inversion lemmas -/

theorem Doordash.dd_payload_fields (f : String → Nat) (o : Doordash.DDOrder)
    (p : OrderPayload) (r : List OrderItemRow)
    (h : Doordash.process f o = .ok (some (p, r))) :
    p.item_sales_cents = Doordash.to_int_cents o.order_subtotal ∧
    p.tax_cents = Doordash.to_int_cents o.tax_amount ∧
    p.tip_cents = Doordash.to_int_cents o.dasher_tip ∧
    p.fees_cents = Doordash.to_int_cents o.delivery_fee + Doordash.to_int_cents o.service_fee ∧
    p.total_cents =
      (if Doordash.to_int_cents o.total_charged_to_consumer = 0
       then p.item_sales_cents + p.tax_cents + p.tip_cents + p.fees_cents
       else Doordash.to_int_cents o.total_charged_to_consumer) := by
  simp only [Doordash.process] at h
  cases h1 : Py.notFalsy (lookupCanon Doordash.DD_LOC_TO_CANON o.store_id) with
  | none => simp [h1] at h
  | some cl =>
    simp only [h1] at h
    cases h2 : Py.truthyOpt o.created_at with
    | none => simp [h2] at h
    | some ts =>
      simp only [h2] at h
      cases h3 : Py.truthyOpt
          (match Py.truthyOpt o.external_delivery_id with
           | some v => some v
           | none => o.id) with
      | none => simp [h3] at h
      | some soid =>
        simp only [h3] at h
        cases h4 : mapExcept Doordash.processItem o.order_items with
        | error e => simp [h4] at h
        | ok rows =>
          simp only [h4, Except.ok.injEq, Option.some.injEq, Prod.mk.injEq] at h
          obtain ⟨hp, hr⟩ := h
          subst hp
          simp

theorem Square.sq_payload_fields (vm : String → Option Square.VarEntry)
    (f : String → Nat) (o : Square.SqOrder) (p : OrderPayload) (r : List OrderItemRow)
    (it tx tp : Int)
    (h : Square.process vm f o = .ok (some (p, r)))
    (hit : Square.to_int_cents o.total_money = .ok it)
    (htx : Square.to_int_cents o.total_tax_money = .ok tx)
    (htp : Square.to_int_cents o.total_tip_money = .ok tp) :
    p.item_sales_cents = it ∧ p.tax_cents = tx ∧ p.tip_cents = tp ∧
    p.fees_cents = 0 ∧ p.total_cents = (if it = 0 then it + tx + tp else it) := by
  simp only [Square.process] at h
  cases h1 : Py.notFalsy (lookupCanon Square.SQUARE_LOC_TO_CANON o.location_id) with
  | none => simp [h1] at h
  | some cl =>
    simp only [h1] at h
    cases h2 : Square.orderedAtOf o with
    | none => simp [h2] at h
    | some ts =>
      simp only [h2] at h
      cases h3 : Square.fulfillmentOf o with
      | error e => simp [h3] at h
      | ok ff =>
        simp only [h3, hit, htx, htp] at h
        cases h4 : Py.truthyOpt o.id with
        | none => simp [h4] at h
        | some soid =>
          simp only [h4] at h
          cases h5 : Py.getOrEmptyO o.source "name" with
          | error e => simp [h5] at h
          | ok sname =>
            simp only [h5] at h
            cases h6 : mapExcept (Square.processItem vm) o.line_items with
            | error e => simp [h6] at h
            | ok rows =>
              simp only [h6, Except.ok.injEq, Option.some.injEq, Prod.mk.injEq] at h
              obtain ⟨hp, hr⟩ := h
              subst hp
              simp

theorem Toast.toast_payload_fields (f : String → Nat) (o : Toast.ToastOrder)
    (p : OrderPayload) (r : List OrderItemRow) (acc : Toast.ChecksAcc)
    (h : Toast.process f o = .ok (some (p, r)))
    (hacc : Toast.sumChecks o.checks = .ok acc) :
    p.item_sales_cents = acc.item_sales ∧ p.tax_cents = acc.tax ∧
    p.tip_cents = acc.tip ∧ p.fees_cents = 0 ∧
    p.total_cents =
      (if acc.total ≠ 0 then acc.total else acc.item_sales + acc.tax + acc.tip) := by
  simp only [Toast.process] at h
  cases h1 : Py.notFalsy (lookupCanon Toast.TOAST_LOC_TO_CANON o.restaurantGuid) with
  | none => simp [h1] at h
  | some cl =>
    simp only [h1] at h
    cases h2 : Py.truthyOpt (Toast.pick_ordered_at o) with
    | none => simp [h2] at h
    | some ts =>
      simp only [h2] at h
      cases h3 : Py.getOrEmptyO o.diningOption "behavior" with
      | error e => simp [h3] at h
      | ok behav =>
        simp only [h3, hacc] at h
        cases h4 : o.guid with
        | none => simp [h4] at h
        | some g =>
          simp only [h4, Except.ok.injEq, Option.some.injEq, Prod.mk.injEq] at h
          obtain ⟨hp, hr⟩ := h
          subst hp
          simp

/-- A helper: a successful Square order implies its money coercions
succeeded. -/
theorem Square.process_coercions_ok (vm : String → Option Square.VarEntry)
    (f : String → Nat) (o : Square.SqOrder) (p : OrderPayload) (r : List OrderItemRow)
    (h : Square.process vm f o = .ok (some (p, r))) :
    ∃ it tx tp, Square.to_int_cents o.total_money = .ok it ∧
      Square.to_int_cents o.total_tax_money = .ok tx ∧
      Square.to_int_cents o.total_tip_money = .ok tp := by
  simp only [Square.process] at h
  cases h1 : Py.notFalsy (lookupCanon Square.SQUARE_LOC_TO_CANON o.location_id) with
  | none => simp [h1] at h
  | some cl =>
    simp only [h1] at h
    cases h2 : Square.orderedAtOf o with
    | none => simp [h2] at h
    | some ts =>
      simp only [h2] at h
      cases h3 : Square.fulfillmentOf o with
      | error e => simp [h3] at h
      | ok ff =>
        simp only [h3] at h
        cases h4 : Square.to_int_cents o.total_money with
        | error e => simp [h4] at h
        | ok it =>
          simp only [h4] at h
          cases h5 : Square.to_int_cents o.total_tax_money with
          | error e => simp [h5] at h
          | ok tx =>
            simp only [h5] at h
            cases h6 : Square.to_int_cents o.total_tip_money with
            | error e => simp [h6] at h
            | ok tp => exact ⟨it, tx, tp, rfl, rfl, rfl⟩

/-- C1: for every order any of the three adapters emits, if the source's
reported total (after money coercion) is `0`, the persisted `total_cents`
equals `item_sales_cents + tax_cents + tip_cents + fees_cents`. For the
restaurant-terminal source the reported total is the sum of the checks'
`totalAmount` coercions. -/
theorem claim_C1_reconciliation
    (f : String → Nat) (vm : String → Option Square.VarEntry)
    (od : Doordash.DDOrder) (pd : OrderPayload) (rd : List OrderItemRow)
    (os : Square.SqOrder) (ps : OrderPayload) (rs : List OrderItemRow)
    (ot : Toast.ToastOrder) (pt : OrderPayload) (rt : List OrderItemRow)
    (acc : Toast.ChecksAcc)
    (hd : Doordash.process f od = .ok (some (pd, rd)))
    (hdz : Doordash.to_int_cents od.total_charged_to_consumer = 0)
    (hs : Square.process vm f os = .ok (some (ps, rs)))
    (hsz : Square.to_int_cents os.total_money = .ok 0)
    (ht : Toast.process f ot = .ok (some (pt, rt)))
    (hacc : Toast.sumChecks ot.checks = .ok acc)
    (htz : acc.total = 0) :
    pd.total_cents = pd.item_sales_cents + pd.tax_cents + pd.tip_cents + pd.fees_cents ∧
    ps.total_cents = ps.item_sales_cents + ps.tax_cents + ps.tip_cents + ps.fees_cents ∧
    pt.total_cents = pt.item_sales_cents + pt.tax_cents + pt.tip_cents + pt.fees_cents := by
  refine ⟨?_, ?_, ?_⟩
  · obtain ⟨h1, h2, h3, h4, h5⟩ := Doordash.dd_payload_fields f od pd rd hd
    rw [h5, if_pos hdz]
  · obtain ⟨it, tx, tp, hit, htx, htp⟩ := Square.process_coercions_ok vm f os ps rs hs
    obtain ⟨e1, e2, e3, e4, e5⟩ :=
      Square.sq_payload_fields vm f os ps rs 0 tx tp hs hsz htx htp
    rw [e5, if_pos rfl, e1, e2, e3, e4]
    omega
  · obtain ⟨t1, t2, t3, t4, t5⟩ := Toast.toast_payload_fields f ot pt rt acc ht hacc
    rw [t5, if_neg (by simp [htz]), t1, t2, t3, t4]
    omega

/-- C1 witness: the reconciliation equation at one concrete order of each
source whose reported total coerces to `0`. -/
theorem claim_C1_reconciliation_witness :
    Doordash.process (fun _ => 0) ddScenOrder = .ok (some (ddScenPayload, [])) ∧
    Square.process (fun _ => none) (fun _ => 0) sqZeroOrder = .ok (some (sqZeroPayload, [])) ∧
    Toast.process (fun _ => 0) toastTwoChecks = .ok (some (toastTwoPayload, [])) ∧
    ddScenPayload.total_cents = ddScenPayload.item_sales_cents + ddScenPayload.tax_cents +
      ddScenPayload.tip_cents + ddScenPayload.fees_cents ∧
    sqZeroPayload.total_cents = sqZeroPayload.item_sales_cents + sqZeroPayload.tax_cents +
      sqZeroPayload.tip_cents + sqZeroPayload.fees_cents ∧
    toastTwoPayload.total_cents = toastTwoPayload.item_sales_cents + toastTwoPayload.tax_cents +
      toastTwoPayload.tip_cents + toastTwoPayload.fees_cents := by
  have H := claim_C1_reconciliation (fun _ => 0) (fun _ => none)
    ddScenOrder ddScenPayload [] sqZeroOrder sqZeroPayload []
    toastTwoChecks toastTwoPayload [] toastTwoAcc
    rfl rfl rfl rfl rfl rfl rfl
  exact ⟨rfl, rfl, rfl, H.1, H.2.1, H.2.2⟩

/-- C3 counterexample: the retail-terminal money coercion raises (rather
than returning `0`) on a present, truthy but unparseable amount. -/
theorem claim_C3_counterexample :
    Square.to_int_cents (some (.jobj [("amount", .jstr "abc")])) = .error () ∧
    Square.to_int_cents (some (.jobj [("amount", .jstr "abc")])) ≠ .ok 0 := by
  exact ⟨rfl, by decide⟩

/-- C3 (amended): a missing or falsy money value coerces to `0` in all three
adapters, a missing or falsy quantity becomes `1`, and a missing or falsy
name becomes `"unknown"`, none of which raises; the marketplace money
coercion additionally never raises, returning `0` whenever `int(x or 0)`
would raise. -/
theorem claim_C3_coercion_defaults (x : Option JVal)
    (h : x = none ∨ ∃ v, x = some v ∧ v.truthy = false) :
    Doordash.to_int_cents x = 0 ∧
    Square.to_int_cents x = .ok 0 ∧
    Toast.intOr0 x = .ok 0 ∧
    Py.pyFloat (Py.orDefault x (.jint 1)) = .ok 1 ∧
    Py.orDefault x (.jstr "unknown") = .jstr "unknown" ∧
    (∀ y : Option JVal, Py.pyInt (Py.orDefault y (.jint 0)) = .error () →
      Doordash.to_int_cents y = 0) := by
  have hx : Py.orDefault x (.jint 0) = .jint 0 := by
    rcases h with h | ⟨v, hv, hf⟩
    · rw [h]; rfl
    · rw [hv]; simp [Py.orDefault, hf]
  have hx1 : Py.orDefault x (.jint 1) = .jint 1 := by
    rcases h with h | ⟨v, hv, hf⟩
    · rw [h]; rfl
    · rw [hv]; simp [Py.orDefault, hf]
  have hxu : Py.orDefault x (.jstr "unknown") = .jstr "unknown" := by
    rcases h with h | ⟨v, hv, hf⟩
    · rw [h]; rfl
    · rw [hv]; simp [Py.orDefault, hf]
  refine ⟨?_, ?_, ?_, ?_, hxu, ?_⟩
  · unfold Doordash.to_int_cents
    rw [hx]
    rfl
  · rcases h with h | ⟨v, hv, hf⟩
    · rw [h]; rfl
    · rw [hv]; unfold Square.to_int_cents; simp [hf]
  · unfold Toast.intOr0
    rw [hx]
    rfl
  · rw [hx1]
    simp [Py.pyFloat]
  · intro y hy
    unfold Doordash.to_int_cents
    rw [hy]

/-- C3 witness: the defaults at the falsy value `""`. -/
theorem claim_C3_coercion_defaults_witness :
    (some (JVal.jstr "") = none ∨ ∃ v, some (JVal.jstr "") = some v ∧ v.truthy = false) ∧
    Doordash.to_int_cents (some (.jstr "")) = 0 ∧
    Square.to_int_cents (some (.jstr "")) = .ok 0 ∧
    Toast.intOr0 (some (.jstr "")) = .ok 0 ∧
    Py.pyFloat (Py.orDefault (some (.jstr "")) (.jint 1)) = .ok 1 ∧
    Py.orDefault (some (.jstr "")) (.jstr "unknown") = .jstr "unknown" := by
  have h : some (JVal.jstr "") = none ∨
      ∃ v, some (JVal.jstr "") = some v ∧ v.truthy = false :=
    Or.inr ⟨.jstr "", rfl, by decide⟩
  have H := claim_C3_coercion_defaults _ h
  exact ⟨h, H.1, H.2.1, H.2.2.1, H.2.2.2.1, H.2.2.2.2.1⟩

/-- C4 counterexample: a restaurant-terminal order with a mapped site and a
usable timestamp but no `guid` makes the run raise `KeyError` instead of
being skipped. -/
theorem claim_C4_counterexample :
    Toast.process (fun _ => 0) toastNoGuid = .error () ∧
    Toast.process (fun _ => 0) toastNoGuid ≠ .ok none := by
  exact ⟨rfl, by decide⟩

/-- C4 (amended): a restaurant-terminal order that passes both silent-skip
guards but lacks its required `guid` raises (the run aborts); it is not a
non-error skip and no record is written for it. -/
theorem claim_C4_missing_guid_raises (f : String → Nat) (o : Toast.ToastOrder)
    (cl : String) (ts : JVal)
    (h1 : Py.notFalsy (lookupCanon Toast.TOAST_LOC_TO_CANON o.restaurantGuid) = some cl)
    (h2 : Py.truthyOpt (Toast.pick_ordered_at o) = some ts)
    (h3 : o.guid = none) :
    Toast.process f o = .error () := by
  simp only [Toast.process, h1, h2]
  cases hb : Py.getOrEmptyO o.diningOption "behavior" with
  | error e => cases e; rfl
  | ok behav =>
    simp only []
    cases hs : Toast.sumChecks o.checks with
    | error e => cases e; rfl
    | ok acc => simp only [h3]

/-- C4 witness: the amended behavior at a concrete order. -/
theorem claim_C4_missing_guid_raises_witness :
    Py.notFalsy (lookupCanon Toast.TOAST_LOC_TO_CANON toastNoGuid.restaurantGuid) =
      some "Downtown" ∧
    Py.truthyOpt (Toast.pick_ordered_at toastNoGuid) = some (.jstr "2024-01-04") ∧
    toastNoGuid.guid = none ∧
    Toast.process (fun _ => 0) toastNoGuid = .error () :=
  ⟨rfl, rfl, rfl, claim_C4_missing_guid_raises (fun _ => 0) toastNoGuid
    "Downtown" (.jstr "2024-01-04") rfl rfl rfl⟩

/-- Dropping one skipped element from a run leaves the run's output
unchanged. -/
theorem runList_skip {α β : Type} (g : α → Except Unit (Option β)) (a : α)
    (h : g a = .ok none) (l1 l2 : List α) :
    runList g (l1 ++ a :: l2) = runList g (l1 ++ l2) := by
  induction l1 with
  | nil => simp [runList, h]
  | cons b l1 ih =>
    show runList g (b :: (l1 ++ a :: l2)) = runList g (b :: (l1 ++ l2))
    cases hb : g b with
    | error e => simp only [runList, hb]
    | ok ob =>
      cases ob with
      | none => simp only [runList, hb]; exact ih
      | some x => simp only [runList, hb, ih]

/-- An unmapped site id or a missing timestamp silently skips a marketplace
order. -/
theorem Doordash.dd_process_skip (f : String → Nat) (o : Doordash.DDOrder)
    (h : lookupCanon Doordash.DD_LOC_TO_CANON o.store_id = none ∨
      Py.truthyOpt o.created_at = none) :
    Doordash.process f o = .ok none := by
  rcases h with h | h
  · simp [Doordash.process, h, Py.notFalsy]
  · cases h1 : Py.notFalsy (lookupCanon Doordash.DD_LOC_TO_CANON o.store_id) with
    | none => simp [Doordash.process, h1]
    | some cl => simp [Doordash.process, h1, h]

/-- An unmapped site id or a missing timestamp silently skips a
retail-terminal order. -/
theorem Square.sq_process_skip (vm : String → Option Square.VarEntry)
    (f : String → Nat) (o : Square.SqOrder)
    (h : lookupCanon Square.SQUARE_LOC_TO_CANON o.location_id = none ∨
      (Py.truthyOpt o.closed_at = none ∧ Py.truthyOpt o.created_at = none)) :
    Square.process vm f o = .ok none := by
  rcases h with h | ⟨hc, hcr⟩
  · simp [Square.process, h, Py.notFalsy]
  · have ho : Square.orderedAtOf o = none := by
      simp [Square.orderedAtOf, hc, hcr]
    cases h1 : Py.notFalsy (lookupCanon Square.SQUARE_LOC_TO_CANON o.location_id) with
    | none => simp [Square.process, h1]
    | some cl => simp [Square.process, h1, ho]

/-- An unmapped site id or a missing timestamp silently skips a
restaurant-terminal order. -/
theorem Toast.toast_process_skip (f : String → Nat) (o : Toast.ToastOrder)
    (h : lookupCanon Toast.TOAST_LOC_TO_CANON o.restaurantGuid = none ∨
      Py.truthyOpt (Toast.pick_ordered_at o) = none) :
    Toast.process f o = .ok none := by
  rcases h with h | h
  · simp [Toast.process, h, Py.notFalsy]
  · cases h1 : Py.notFalsy (lookupCanon Toast.TOAST_LOC_TO_CANON o.restaurantGuid) with
    | none => simp [Toast.process, h1]
    | some cl => simp [Toast.process, h1, h]

/-- C6: in each adapter, an order whose site id has no entry in that
source's static mapping table, or from which no usable timestamp can be
derived, is silently dropped: it yields no record, and the sequence of
canonical records produced from the rest of the document is exactly the one
produced without it. -/
theorem claim_C6_skip_correctness
    (f : String → Nat) (vm : String → Option Square.VarEntry)
    (od : Doordash.DDOrder) (l1 l2 : List Doordash.DDOrder)
    (os : Square.SqOrder) (m1 m2 : List Square.SqOrder)
    (ot : Toast.ToastOrder) (n1 n2 : List Toast.ToastOrder)
    (hd : lookupCanon Doordash.DD_LOC_TO_CANON od.store_id = none ∨
      Py.truthyOpt od.created_at = none)
    (hs : lookupCanon Square.SQUARE_LOC_TO_CANON os.location_id = none ∨
      (Py.truthyOpt os.closed_at = none ∧ Py.truthyOpt os.created_at = none))
    (ht : lookupCanon Toast.TOAST_LOC_TO_CANON ot.restaurantGuid = none ∨
      Py.truthyOpt (Toast.pick_ordered_at ot) = none) :
    Doordash.process f od = .ok none ∧
    Doordash.runOrders f (l1 ++ od :: l2) = Doordash.runOrders f (l1 ++ l2) ∧
    Square.process vm f os = .ok none ∧
    Square.runOrders vm f (m1 ++ os :: m2) = Square.runOrders vm f (m1 ++ m2) ∧
    Toast.process f ot = .ok none ∧
    Toast.runOrders f (n1 ++ ot :: n2) = Toast.runOrders f (n1 ++ n2) :=
  ⟨Doordash.dd_process_skip f od hd,
   runList_skip (Doordash.process f) od (Doordash.dd_process_skip f od hd) l1 l2,
   Square.sq_process_skip vm f os hs,
   runList_skip (Square.process vm f) os (Square.sq_process_skip vm f os hs) m1 m2,
   Toast.toast_process_skip f ot ht,
   runList_skip (Toast.process f) ot (Toast.toast_process_skip f ot ht) n1 n2⟩

/-- C6 witness: concrete skipped orders inside concrete documents. -/
theorem claim_C6_skip_correctness_witness :
    Doordash.process (fun _ => 0) ddBadSite = .ok none ∧
    Doordash.runOrders (fun _ => 0) [ddScenOrder, ddBadSite] =
      Doordash.runOrders (fun _ => 0) [ddScenOrder] ∧
    Square.process (fun _ => none) (fun _ => 0) sqBadSite = .ok none ∧
    Square.runOrders (fun _ => none) (fun _ => 0) [sqZeroOrder, sqBadSite] =
      Square.runOrders (fun _ => none) (fun _ => 0) [sqZeroOrder] ∧
    Toast.process (fun _ => 0) toastNoStamp = .ok none ∧
    Toast.runOrders (fun _ => 0) [toastTwoChecks, toastNoStamp] =
      Toast.runOrders (fun _ => 0) [toastTwoChecks] :=
  claim_C6_skip_correctness (fun _ => 0) (fun _ => none)
    ddBadSite [ddScenOrder] [] sqBadSite [sqZeroOrder] [] toastNoStamp [toastTwoChecks] []
    (Or.inl rfl) (Or.inl rfl) (Or.inr rfl)

/-- C7 counterexample: the spec scenario order (subtotal 1000, tax 80, tip
200, delivery fee 300, service fee 100, reported total 0) is persisted with
`total_cents = 1680`, not the claimed `1580`. -/
theorem claim_C7_counterexample :
    feesTotalOf (Doordash.process (fun _ => 0) ddScenOrder) = some (400, 1680) ∧
    some ((400 : Int), (1680 : Int)) ≠ some ((400 : Int), (1580 : Int)) := by
  exact ⟨rfl, by decide⟩

/-- C7 (amended): every persisted marketplace order carries
`fees_cents` equal to the sum of the coerced delivery-fee and service-fee
fields; the scenario order is persisted with `fees_cents = 400` and
`total_cents = 1680` (`= 1000 + 80 + 200 + 400`). -/
theorem claim_C7_fees_sum (f : String → Nat) (od : Doordash.DDOrder)
    (p : OrderPayload) (r : List OrderItemRow)
    (h : Doordash.process f od = .ok (some (p, r))) :
    p.fees_cents = Doordash.to_int_cents od.delivery_fee +
      Doordash.to_int_cents od.service_fee ∧
    (od = ddScenOrder → p.fees_cents = 400 ∧ p.total_cents = 1680) := by
  obtain ⟨h1, h2, h3, h4, h5⟩ := Doordash.dd_payload_fields f od p r h
  refine ⟨h4, ?_⟩
  intro he
  subst he
  constructor
  · rw [h4]; decide
  · rw [h5, if_pos (by decide), h1, h2, h3, h4]; decide

/-- C7 witness: the scenario order evaluated end to end. -/
theorem claim_C7_fees_sum_witness :
    Doordash.process (fun _ => 0) ddScenOrder = .ok (some (ddScenPayload, [])) ∧
    ddScenPayload.fees_cents = 400 ∧ ddScenPayload.total_cents = 1680 := by
  have H := (claim_C7_fees_sum (fun _ => 0) ddScenOrder ddScenPayload [] rfl).2 rfl
  exact ⟨rfl, H.1, H.2⟩

/-- C8 counterexample: a retail-terminal line item whose reported line total
is present and `0` with quantity `2` is persisted with a null
`unit_price_cents`, not with the claimed `0 / 2 = 0`. -/
theorem claim_C8_counterexample :
    (Square.processItem (fun _ => none) liZeroTotal).map OrderItemRow.unit_price_cents =
      .ok none ∧
    (Except.ok (none : Option Int) : Except Unit (Option Int)) ≠ .ok (some 0) := by
  exact ⟨rfl, by decide⟩

/-- C8 (amended): `unit_price_cents` is `line_total / quantity` truncated
toward zero when both the coerced line total and the quantity are non-zero,
and null otherwise (in particular when the line total is present but `0`). -/
theorem claim_C8_unit_price (vm : String → Option Square.VarEntry)
    (li : Square.SqLineItem) (row : OrderItemRow) (q : Rat) (t : Int)
    (h : Square.processItem vm li = .ok row)
    (hq : Py.pyFloat (Py.orDefault li.quantity (.jint 1)) = .ok q)
    (ht : Square.lineTotalOf li = .ok t) :
    row.unit_price_cents =
      (if q ≠ 0 ∧ t ≠ 0 then some (Py.truncRat ((t : Rat) / q)) else none) := by
  simp only [Square.processItem, hq, ht] at h
  cases h5 : normNameJ (Square.resolveNameCat vm li).1 with
  | error e => simp [h5] at h
  | ok nn =>
    simp only [h5] at h
    cases h6 : normCatJ (some (Square.resolveNameCat vm li).2) with
    | error e => simp [h6] at h
    | ok nc =>
      simp only [h6, Except.ok.injEq] at h
      subst h
      simp

/-- C8 witness: quantity 2 with line total 500 derives `unit_price = 250`. -/
theorem claim_C8_unit_price_witness :
    Square.processItem (Square.build_catalog_maps catScen) liLatteRegular = .ok liLatteRow ∧
    Py.pyFloat (Py.orDefault liLatteRegular.quantity (.jint 1)) = .ok ((2 : Int) : Rat) ∧
    Square.lineTotalOf liLatteRegular = .ok 500 ∧
    liLatteRow.unit_price_cents = some 250 := by
  have H := claim_C8_unit_price (Square.build_catalog_maps catScen) liLatteRegular
    liLatteRow ((2 : Int) : Rat) 500 rfl rfl rfl
  refine ⟨rfl, rfl, rfl, H.trans ?_⟩
  norm_num [Py.truncRat]

/-- C10: the retail-terminal adapter reads `item_sales_cents` from the same
`total_money` field as the reported total, so whenever the coerced reported
total is non-zero the persisted `item_sales_cents` equals `total_cents`. -/
theorem claim_C10_item_sales_total (vm : String → Option Square.VarEntry)
    (f : String → Nat) (o : Square.SqOrder) (p : OrderPayload)
    (r : List OrderItemRow) (t : Int)
    (h : Square.process vm f o = .ok (some (p, r)))
    (ht : Square.to_int_cents o.total_money = .ok t)
    (hnz : t ≠ 0) :
    p.item_sales_cents = t ∧ p.total_cents = t ∧
    p.item_sales_cents = p.total_cents := by
  obtain ⟨it, tx, tp, hit, htx, htp⟩ := Square.process_coercions_ok vm f o p r h
  obtain ⟨e1, e2, e3, e4, e5⟩ := Square.sq_payload_fields vm f o p r t tx tp h ht htx htp
  rw [e5, if_neg hnz]
  exact ⟨e1, rfl, by rw [e1]⟩

/-- C10 witness: a retail-terminal order with a non-zero reported total. -/
theorem claim_C10_item_sales_total_witness :
    Square.process (fun _ => none) (fun _ => 0) sqTotalOrder =
      .ok (some (sqTotalPayload, [])) ∧
    Square.to_int_cents sqTotalOrder.total_money = .ok 1500 ∧
    sqTotalPayload.item_sales_cents = sqTotalPayload.total_cents := by
  have H := claim_C10_item_sales_total (fun _ => none) (fun _ => 0) sqTotalOrder
    sqTotalPayload [] 1500 rfl rfl (by decide)
  exact ⟨rfl, rfl, H.2.2⟩

/-- Last-write-wins lookup for the `category_names` build: a category
object present in the document, unique for its id, is found. -/
theorem Square.catNames_fold (cid : String) (nm : Option String) :
    ∀ (objs : List Square.CatalogObject) (acc : String → Option (Option String)),
    (∀ n, Square.CatalogObject.category cid n ∈ objs → n = nm) →
    (Square.CatalogObject.category cid nm ∈ objs ∨ acc cid = some nm) →
    List.foldl Square.catNamesStep acc objs cid = some nm := by
  intro objs
  induction objs with
  | nil =>
    intro acc _ hbase
    rcases hbase with h | h
    · simp at h
    · simpa using h
  | cons obj objs ih =>
    intro acc huniq hbase
    show List.foldl Square.catNamesStep (Square.catNamesStep acc obj) objs cid = some nm
    apply ih (Square.catNamesStep acc obj) (fun n hn => huniq n (by simp [hn]))
    rcases hbase with hmem | hacc
    · rcases List.mem_cons.mp hmem with heq | hmem2
      · right
        rw [← heq]
        simp [Square.catNamesStep, Function.update_same]
      · left
        exact hmem2
    · cases obj with
      | category i n =>
        by_cases hic : i = cid
        · right
          subst hic
          have hn : n = nm := huniq n (by simp)
          simp [Square.catNamesStep, Function.update_same, hn]
        · right
          simp only [Square.catNamesStep]
          rw [Function.update_noteq (fun hh => hic hh.symm)]
          exact hacc
      | item i n c vars => right; simpa [Square.catNamesStep] using hacc
      | other => right; simpa [Square.catNamesStep] using hacc

theorem Square.catNames_eq (objs : List Square.CatalogObject) (cid : String)
    (nm : Option String)
    (hmem : Square.CatalogObject.category cid nm ∈ objs)
    (huniq : ∀ n, Square.CatalogObject.category cid n ∈ objs → n = nm) :
    Square.catNames objs cid = some nm :=
  Square.catNames_fold cid nm objs (fun _ => none) huniq (Or.inl hmem)

/-- Last-write-wins lookup for the `items` build. -/
theorem Square.itemsMap_fold (iid : String) (val : Option String × Option String) :
    ∀ (objs : List Square.CatalogObject)
      (acc : String → Option (Option String × Option String)),
    (∀ n c vs, Square.CatalogObject.item iid n c vs ∈ objs → (n, c) = val) →
    ((∃ vs, Square.CatalogObject.item iid val.1 val.2 vs ∈ objs) ∨ acc iid = some val) →
    List.foldl Square.itemsStep acc objs iid = some val := by
  intro objs
  induction objs with
  | nil =>
    intro acc _ hbase
    rcases hbase with ⟨vs, h⟩ | h
    · simp at h
    · simpa using h
  | cons obj objs ih =>
    intro acc huniq hbase
    show List.foldl Square.itemsStep (Square.itemsStep acc obj) objs iid = some val
    apply ih (Square.itemsStep acc obj) (fun n c vs hn => huniq n c vs (by simp [hn]))
    rcases hbase with ⟨vs, hmem⟩ | hacc
    · rcases List.mem_cons.mp hmem with heq | hmem2
      · right
        rw [← heq]
        simp [Square.itemsStep, Function.update_same]
      · left
        exact ⟨vs, hmem2⟩
    · cases obj with
      | category i n => right; simpa [Square.itemsStep] using hacc
      | other => right; simpa [Square.itemsStep] using hacc
      | item i n c vars =>
        by_cases hic : i = iid
        · right
          subst hic
          have hn : (n, c) = val := huniq n c vars (by simp)
          simp [Square.itemsStep, Function.update_same, hn]
        · right
          simp only [Square.itemsStep]
          rw [Function.update_noteq (fun hh => hic hh.symm)]
          exact hacc

theorem Square.itemsMap_eq (objs : List Square.CatalogObject) (iid : String)
    (nm cido : Option String) (vars0 : List Square.SqVariation)
    (hmem : Square.CatalogObject.item iid nm cido vars0 ∈ objs)
    (huniq : ∀ n c vs, Square.CatalogObject.item iid n c vs ∈ objs → (n, c) = (nm, cido)) :
    Square.itemsMap objs iid = some (nm, cido) :=
  Square.itemsMap_fold iid (nm, cido) objs (fun _ => none) huniq (Or.inl ⟨vars0, hmem⟩)

/-- Lookup through the inner fold over one item's variation list. -/
theorem Square.varsFold (vid : String) (val : Option String × String) :
    ∀ (vars : List Square.SqVariation) (i : String)
      (acc : String → Option (Option String × String)),
    (∀ v ∈ vars, v.id = vid → (v.name, i) = val) →
    ((∃ v ∈ vars, v.id = vid) ∨ acc vid = some val) →
    List.foldl (Square.varStep i) acc vars vid = some val := by
  intro vars
  induction vars with
  | nil =>
    intro i acc _ hbase
    rcases hbase with ⟨v, hv, _⟩ | h
    · simp at hv
    · simpa using h
  | cons v vars ih =>
    intro i acc hall hbase
    show List.foldl (Square.varStep i) (Square.varStep i acc v) vars vid = some val
    apply ih i (Square.varStep i acc v) (fun w hw hwid => hall w (by simp [hw]) hwid)
    by_cases hv : v.id = vid
    · right
      have hval := hall v (by simp) hv
      simp only [Square.varStep, hval]
      rw [hv, Function.update_same]
    · rcases hbase with ⟨w, hw, hwid⟩ | hacc
      · rcases List.mem_cons.mp hw with heq | hw2
        · exact absurd (heq ▸ hwid) hv
        · exact Or.inl ⟨w, hw2, hwid⟩
      · right
        simp only [Square.varStep]
        rw [Function.update_noteq (fun hh => hv hh.symm)]
        exact hacc

/-- Last-write-wins lookup for the `variations` build across the whole
catalog. -/
theorem Square.variationsMap_fold (vid : String) (val : Option String × String) :
    ∀ (objs : List Square.CatalogObject)
      (acc : String → Option (Option String × String)),
    (∀ i n c vs, Square.CatalogObject.item i n c vs ∈ objs →
      ∀ v ∈ vs, v.id = vid → (v.name, i) = val) →
    ((∃ n c vs, Square.CatalogObject.item val.2 n c vs ∈ objs ∧
        ∃ v ∈ vs, v.id = vid) ∨ acc vid = some val) →
    List.foldl Square.variationsStep acc objs vid = some val := by
  intro objs
  induction objs with
  | nil =>
    intro acc _ hbase
    rcases hbase with ⟨n, c, vs, h, _⟩ | h
    · simp at h
    · simpa using h
  | cons obj objs ih =>
    intro acc huniq hbase
    show List.foldl Square.variationsStep (Square.variationsStep acc obj) objs vid = some val
    apply ih (Square.variationsStep acc obj)
      (fun i n c vs hn => huniq i n c vs (by simp [hn]))
    rcases hbase with ⟨n, c, vs, hmem, v, hv, hvid⟩ | hacc
    · rcases List.mem_cons.mp hmem with heq | hmem2
      · right
        rw [← heq]
        simp only [Square.variationsStep]
        exact Square.varsFold vid val vs val.2 acc
          (fun w hw hwid => huniq val.2 n c vs (by rw [heq]; simp) w hw hwid)
          (Or.inl ⟨v, hv, hvid⟩)
      · left
        exact ⟨n, c, vs, hmem2, v, hv, hvid⟩
    · cases obj with
      | category i n => right; simpa [Square.variationsStep] using hacc
      | other => right; simpa [Square.variationsStep] using hacc
      | item i n c vars =>
        right
        simp only [Square.variationsStep]
        exact Square.varsFold vid val vars i acc
          (fun w hw hwid => huniq i n c vars (by simp) w hw hwid)
          (Or.inr hacc)

theorem Square.variationsMap_eq (objs : List Square.CatalogObject)
    (vid iid : String) (vname : Option String) (n c : Option String)
    (vs : List Square.SqVariation)
    (hmem : Square.CatalogObject.item iid n c vs ∈ objs)
    (hvar : ∃ v ∈ vs, v.id = vid ∧ v.name = vname)
    (huniq : ∀ i nn cc ws, Square.CatalogObject.item i nn cc ws ∈ objs →
      ∀ v ∈ ws, v.id = vid → (v.name, i) = (vname, iid)) :
    Square.variationsMap objs vid = some (vname, iid) := by
  obtain ⟨v, hv, hvid, hvn⟩ := hvar
  exact Square.variationsMap_fold vid (vname, iid) objs (fun _ => none) huniq
    (Or.inl ⟨n, c, vs, hmem, v, hv, hvid⟩)

/-- The flat resolver maps a variation to its chain's names when the chain
category `C` → item `I` → variation `V` is present in the catalog and the
three ids are unambiguous. -/
theorem Square.build_chain (objs : List Square.CatalogObject)
    (cid C iid I vid V : String) (vars0 : List Square.SqVariation)
    (hcat : Square.CatalogObject.category cid (some C) ∈ objs)
    (hcatU : ∀ n, Square.CatalogObject.category cid n ∈ objs → n = some C)
    (hitem : Square.CatalogObject.item iid (some I) (some cid) vars0 ∈ objs)
    (hitemU : ∀ n c vs, Square.CatalogObject.item iid n c vs ∈ objs →
      (n, c) = (some I, some cid))
    (hvar : (⟨vid, some V⟩ : Square.SqVariation) ∈ vars0)
    (hvarU : ∀ i n c vs, Square.CatalogObject.item i n c vs ∈ objs →
      ∀ v ∈ vs, v.id = vid → (v.name, i) = (some V, iid)) :
    Square.build_catalog_maps objs vid =
      some ⟨some I, some V, some C⟩ := by
  have h1 := Square.variationsMap_eq objs vid iid (some V) (some I) (some cid) vars0
    hitem ⟨⟨vid, some V⟩, hvar, rfl, rfl⟩ hvarU
  have h2 := Square.itemsMap_eq objs iid (some I) (some cid) vars0 hitem hitemU
  have h3 := Square.catNames_eq objs cid (some C) hcat hcatU
  simp [Square.build_catalog_maps, h1, h2, h3]

/-- C5 counterexample: a line item that carries an inline name resolves to
the inline name with the variation suffix, not to the catalog item name
`"I - V"` the claim asserts for every line item referencing `V`. -/
theorem claim_C5_counterexample :
    Square.resolveNameCat (Square.build_catalog_maps catScen) liMochaInline =
      (.jstr "Mocha - Oat", .jstr "Coffee") ∧
    JVal.jstr "Mocha - Oat" ≠ .jstr "Latte - Oat" := by
  exact ⟨rfl, by decide⟩

/-- C5 (amended): for a catalog containing category `C` → item `I` →
variation `V` (ids unambiguous, names non-empty) and a line item with **no
inline name** referencing `V`, the resolved name is `"I - V"` when `V` is
neither `"regular"` nor `"default"` case-insensitively and exactly `"I"`
otherwise, and the resolved category is `C`. -/
theorem claim_C5_catalog_resolution
    (objs : List Square.CatalogObject) (cid C iid I vid V : String)
    (vars0 : List Square.SqVariation) (li : Square.SqLineItem)
    (hcat : Square.CatalogObject.category cid (some C) ∈ objs)
    (hcatU : ∀ n, Square.CatalogObject.category cid n ∈ objs → n = some C)
    (hitem : Square.CatalogObject.item iid (some I) (some cid) vars0 ∈ objs)
    (hitemU : ∀ n c vs, Square.CatalogObject.item iid n c vs ∈ objs →
      (n, c) = (some I, some cid))
    (hvar : (⟨vid, some V⟩ : Square.SqVariation) ∈ vars0)
    (hvarU : ∀ i n c vs, Square.CatalogObject.item i n c vs ∈ objs →
      ∀ v ∈ vs, v.id = vid → (v.name, i) = (some V, iid))
    (hname : Py.truthyOpt li.name = none)
    (href : li.catalog_object_id = some (.jstr vid))
    (hI : I ≠ "") (hV : V ≠ "") :
    Square.resolveNameCat (Square.build_catalog_maps objs) li =
      (.jstr (if pyLowerStr V ≠ "regular" ∧ pyLowerStr V ≠ "default"
              then I ++ " - " ++ V else I),
       .jstr C) := by
  have hb := Square.build_chain objs cid C iid I vid V vars0 hcat hcatU hitem
    hitemU hvar hvarU
  by_cases hreg : pyLowerStr V ≠ "regular" ∧ pyLowerStr V ≠ "default"
  · simp [Square.resolveNameCat, href, hname, hb, hI, hV, hreg, Py.pyStr]
  · simp [Square.resolveNameCat, href, hname, hb, hI, hreg, Py.pyStr]

/-- C5 witness: the spec scenario — no inline name, catalog item "Latte"
with variation "Regular" — resolves to raw name "Latte" with no suffix and
category "Coffee". -/
theorem claim_C5_catalog_resolution_witness :
    Py.truthyOpt liLatteRegular.name = none ∧
    liLatteRegular.catalog_object_id = some (.jstr "V1") ∧
    Square.resolveNameCat (Square.build_catalog_maps catScen) liLatteRegular =
      (.jstr "Latte", .jstr "Coffee") := by
  have hcatU : ∀ n, Square.CatalogObject.category "C1" n ∈ catScen → n = some "Coffee" := by
    intro n hn
    simp [catScen] at hn
    exact hn
  have hitemU : ∀ n c vs, Square.CatalogObject.item "I1" n c vs ∈ catScen →
      (n, c) = (some "Latte", some "C1") := by
    intro n c vs hn
    simp [catScen] at hn
    simp [hn.1, hn.2.1]
  have hvarU : ∀ i n c vs, Square.CatalogObject.item i n c vs ∈ catScen →
      ∀ v ∈ vs, v.id = "V1" → (v.name, i) = (some "Regular", "I1") := by
    intro i n c vs hn v hv hvid
    simp [catScen] at hn
    obtain ⟨hi, hn2, hc, hvs⟩ := hn
    subst hvs
    rcases List.mem_cons.mp hv with he | hv2
    · subst he
      simp [hi]
    · simp at hv2
      subst hv2
      simp at hvid
  have H := claim_C5_catalog_resolution catScen "C1" "Coffee" "I1" "Latte" "V1" "Regular"
    [⟨"V1", some "Regular"⟩, ⟨"V2", some "Oat"⟩] liLatteRegular
    (by simp [catScen]) hcatU (by simp [catScen]) hitemU (by simp) hvarU
    rfl rfl (by decide) (by decide)
  refine ⟨rfl, rfl, H.trans ?_⟩
  decide

/-! ### Lemmas about the split/join machinery of the text normalizer -/

theorem wordsAux_cons (c : Char) (l : List Char) :
    wordsAux (c :: l) = wordsStep c (wordsAux l) := rfl

theorem wordsAux_spec (P : Char → Prop) :
    ∀ l : List Char, (∀ c ∈ l, P c) →
    ((∀ c ∈ (wordsAux l).1, pyIsSpace c = false ∧ P c) ∧
     (∀ t ∈ (wordsAux l).2, t ≠ [] ∧ ∀ c ∈ t, pyIsSpace c = false ∧ P c)) := by
  intro l
  induction l with
  | nil =>
    intro _
    constructor <;> simp [wordsAux]
  | cons c l ih =>
    intro hl
    obtain ⟨ih1, ih2⟩ := ih (fun x hx => hl x (by simp [hx]))
    rw [wordsAux_cons]
    unfold wordsStep
    by_cases hsp : pyIsSpace c
    · rw [if_pos hsp]
      constructor
      · simp
      · intro t ht
        simp only at ht
        by_cases he : (wordsAux l).1.isEmpty
        · rw [if_pos he] at ht
          exact ih2 t ht
        · rw [if_neg he] at ht
          rcases List.mem_cons.mp ht with he2 | ht2
          · subst he2
            exact ⟨fun hnil => he (by simp [hnil]), ih1⟩
          · exact ih2 t ht2
    · rw [if_neg hsp]
      constructor
      · intro d hd
        simp only at hd
        rcases List.mem_cons.mp hd with he2 | hd2
        · rw [he2]
          exact ⟨by simpa using hsp, hl _ (by simp)⟩
        · exact ih1 d hd2
      · exact ih2

theorem pyWords_spec (P : Char → Prop) (l : List Char) (hl : ∀ c ∈ l, P c) :
    ∀ t ∈ pyWords l, t ≠ [] ∧ ∀ c ∈ t, pyIsSpace c = false ∧ P c := by
  obtain ⟨h1, h2⟩ := wordsAux_spec P l hl
  intro t ht
  unfold pyWords at ht
  by_cases he : (wordsAux l).1.isEmpty
  · rw [if_pos he] at ht
    exact h2 t ht
  · rw [if_neg he] at ht
    rcases List.mem_cons.mp ht with heq | ht2
    · subst heq
      exact ⟨fun hnil => he (by simp [hnil]), h1⟩
    · exact h2 t ht2

theorem mem_joinSpace : ∀ (ts : List (List Char)) (c : Char),
    c ∈ joinSpace ts → c = ' ' ∨ ∃ t ∈ ts, c ∈ t := by
  intro ts
  induction ts with
  | nil => intro c hc; simp [joinSpace] at hc
  | cons t ts ih =>
    intro c hc
    cases ts with
    | nil => exact Or.inr ⟨t, by simp, by simpa [joinSpace] using hc⟩
    | cons t2 ts2 =>
      rw [show joinSpace (t :: t2 :: ts2) = t ++ ' ' :: joinSpace (t2 :: ts2) from rfl] at hc
      rcases List.mem_append.mp hc with h | h
      · exact Or.inr ⟨t, by simp, h⟩
      · rcases List.mem_cons.mp h with he | h2
        · exact Or.inl he
        · rcases ih c h2 with h3 | ⟨u, hu, hcu⟩
          · exact Or.inl h3
          · exact Or.inr ⟨u, by simp [hu], hcu⟩

theorem wordsAux_append_tok : ∀ (t l : List Char), (∀ c ∈ t, pyIsSpace c = false) →
    wordsAux (t ++ l) = (t ++ (wordsAux l).1, (wordsAux l).2) := by
  intro t
  induction t with
  | nil => intro l _; simp
  | cons c t ih =>
    intro l ht
    have hc : pyIsSpace c = false := ht c (by simp)
    rw [List.cons_append, wordsAux_cons, ih l (fun x hx => ht x (by simp [hx]))]
    unfold wordsStep
    rw [hc]
    simp

theorem wordsAux_space_cons (l : List Char) : wordsAux (' ' :: l) = ([], pyWords l) := by
  rw [wordsAux_cons]
  unfold wordsStep
  rw [if_pos (by decide)]
  rfl

theorem pyWords_joinSpace : ∀ (ts : List (List Char)),
    (∀ t ∈ ts, t ≠ [] ∧ ∀ c ∈ t, pyIsSpace c = false) →
    pyWords (joinSpace ts) = ts := by
  intro ts
  induction ts with
  | nil => intro _; rfl
  | cons t ts ih =>
    intro h
    obtain ⟨ht1, ht2⟩ := h t (by simp)
    have ht0 : t.isEmpty = false := by
      cases t with
      | nil => exact absurd rfl ht1
      | cons a as => rfl
    cases ts with
    | nil =>
      show pyWords (joinSpace [t]) = [t]
      rw [show joinSpace [t] = t from rfl]
      have e : wordsAux t = (t, []) := by
        have e0 := wordsAux_append_tok t [] ht2
        simpa [wordsAux] using e0
      unfold pyWords
      rw [e]
      simp [ht0]
    | cons t2 ts2 =>
      show pyWords (joinSpace (t :: t2 :: ts2)) = t :: t2 :: ts2
      rw [show joinSpace (t :: t2 :: ts2) = t ++ ' ' :: joinSpace (t2 :: ts2) from rfl]
      have e1 : wordsAux (t ++ ' ' :: joinSpace (t2 :: ts2)) =
          (t, pyWords (joinSpace (t2 :: ts2))) := by
        rw [wordsAux_append_tok t _ ht2, wordsAux_space_cons]
        simp
      have e2 := ih (fun u hu => h u (by simp [hu]))
      unfold pyWords
      rw [e1, e2]
      simp [ht0]

theorem stripRightL_cons (c : Char) (cs : List Char) :
    stripRightL (c :: cs) =
      (match stripRightL cs with
       | [] => if pyIsSpace c then [] else [c]
       | r => c :: r) := rfl

theorem stripRightL_good_tok : ∀ (t : List Char), t ≠ [] →
    (∀ c ∈ t, pyIsSpace c = false) → stripRightL t = t := by
  intro t
  induction t with
  | nil => intro h _; exact absurd rfl h
  | cons c cs ih =>
    intro _ h
    cases cs with
    | nil =>
      have hc : pyIsSpace c = false := h c (by simp)
      simp [stripRightL, hc]
    | cons d cs2 =>
      have e := ih (by simp) (fun x hx => h x (by simp [hx]))
      rw [stripRightL_cons, e]

theorem stripRightL_append : ∀ (l1 l2 : List Char), stripRightL l2 ≠ [] →
    stripRightL (l1 ++ l2) = l1 ++ stripRightL l2 := by
  intro l1 l2 h
  induction l1 with
  | nil => simp
  | cons c l1 ih =>
    rw [List.cons_append, stripRightL_cons, ih]
    cases hr : l1 ++ stripRightL l2 with
    | nil => exact absurd (List.append_eq_nil.mp hr).2 h
    | cons a as => simp [hr]

theorem joinSpace_ne_nil : ∀ (t : List Char) (ts : List (List Char)), t ≠ [] →
    joinSpace (t :: ts) ≠ [] := by
  intro t ts ht
  cases ts with
  | nil => simpa [joinSpace] using ht
  | cons t2 ts2 => simp [joinSpace]

theorem stripRightL_join_good : ∀ (ts : List (List Char)),
    (∀ t ∈ ts, t ≠ [] ∧ ∀ c ∈ t, pyIsSpace c = false) →
    stripRightL (joinSpace ts) = joinSpace ts := by
  intro ts
  induction ts with
  | nil => intro _; rfl
  | cons t ts ih =>
    intro h
    obtain ⟨ht1, ht2⟩ := h t (by simp)
    cases ts with
    | nil => exact stripRightL_good_tok t ht1 ht2
    | cons t2 ts2 =>
      have hin := ih (fun u hu => h u (by simp [hu]))
      obtain ⟨h21, _⟩ := h t2 (by simp)
      have hjne : joinSpace (t2 :: ts2) ≠ [] := joinSpace_ne_nil t2 ts2 h21
      have hsp : stripRightL (' ' :: joinSpace (t2 :: ts2)) = ' ' :: joinSpace (t2 :: ts2) := by
        rw [stripRightL_cons, hin]
        cases hj : joinSpace (t2 :: ts2) with
        | nil => exact absurd hj hjne
        | cons a as => rfl
      rw [show joinSpace (t :: t2 :: ts2) = t ++ ' ' :: joinSpace (t2 :: ts2) from rfl,
          stripRightL_append t _ (by rw [hsp]; simp), hsp]

theorem stripLeadL_join_good : ∀ (ts : List (List Char)),
    (∀ t ∈ ts, t ≠ [] ∧ ∀ c ∈ t, pyIsSpace c = false) →
    stripLeadL (joinSpace ts) = joinSpace ts := by
  intro ts h
  cases ts with
  | nil => rfl
  | cons t ts2 =>
    obtain ⟨ht1, ht2⟩ := h t (by simp)
    cases t with
    | nil => exact absurd rfl ht1
    | cons c cs =>
      have hc : pyIsSpace c = false := ht2 c (by simp)
      cases ts2 with
      | nil =>
        show stripLeadL (c :: cs) = c :: cs
        simp [stripLeadL, List.dropWhile_cons, hc]
      | cons u us =>
        show stripLeadL ((c :: cs) ++ ' ' :: joinSpace (u :: us)) = _
        rw [List.cons_append]
        simp only [stripLeadL, List.dropWhile_cons, hc]
        rfl

theorem pyStripL_join_good (ts : List (List Char))
    (h : ∀ t ∈ ts, t ≠ [] ∧ ∀ c ∈ t, pyIsSpace c = false) :
    pyStripL (joinSpace ts) = joinSpace ts := by
  unfold pyStripL
  rw [stripLeadL_join_good ts h, stripRightL_join_good ts h]

theorem filter_self_of {α : Type} {p : α → Bool} :
    ∀ l : List α, (∀ a ∈ l, p a = true) → l.filter p = l := by
  intro l h
  induction l with
  | nil => rfl
  | cons a l ih =>
    simp [List.filter_cons, h a (by simp), ih (fun x hx => h x (by simp [hx]))]

theorem map_self_of {α : Type} {f : α → α} :
    ∀ l : List α, (∀ a ∈ l, f a = a) → l.map f = l := by
  intro l h
  induction l with
  | nil => rfl
  | cons a l ih =>
    simp [h a (by simp), ih (fun x hx => h x (by simp [hx]))]

/-- The core of normalization idempotence, at the character-list level. -/
theorem normalizeCategoryL_idem (l : List Char) :
    normalizeCategoryL (normalizeCategoryL l) = normalizeCategoryL l := by
  unfold normalizeCategoryL
  set z := (((pyStripL l).filter (fun c => !isSymbolChar c)).filter
    (fun c => c.toNat < 0x10000)).map pyLower with hz
  have hzc : ∀ c ∈ z, isSymbolChar c = false ∧ c.toNat < 0x10000 ∧ pyLower c = c := by
    intro c hc
    rw [hz] at hc
    rcases List.mem_map.mp hc with ⟨d, hd, hdc⟩
    have hd2 := List.mem_filter.mp hd
    have hd3 := List.mem_filter.mp hd2.1
    have hsym : isSymbolChar d = false := by simpa using hd3.2
    have hlow : d.toNat < 0x10000 := by simpa using hd2.2
    subst hdc
    exact ⟨isSymbolChar_pyLower d hsym, pyLower_lt_bmp d hlow, pyLower_pyLower d⟩
  have htoks := pyWords_spec
    (fun c => isSymbolChar c = false ∧ c.toNat < 0x10000 ∧ pyLower c = c) z hzc
  have hgood : ∀ t ∈ pyWords z, t ≠ [] ∧ ∀ c ∈ t, pyIsSpace c = false :=
    fun t ht => ⟨(htoks t ht).1, fun c hc => ((htoks t ht).2 c hc).1⟩
  have hyc : ∀ c ∈ joinSpace (pyWords z),
      isSymbolChar c = false ∧ c.toNat < 0x10000 ∧ pyLower c = c := by
    intro c hc
    rcases mem_joinSpace (pyWords z) c hc with he | ⟨t, ht, hct⟩
    · subst he
      exact ⟨by decide, by decide, by decide⟩
    · exact ((htoks t ht).2 c hct).2
  rw [pyStripL_join_good (pyWords z) hgood]
  rw [filter_self_of (joinSpace (pyWords z)) (fun c hc => by simp [(hyc c hc).1])]
  rw [filter_self_of (joinSpace (pyWords z)) (fun c hc => by simp [(hyc c hc).2.1])]
  rw [map_self_of (joinSpace (pyWords z)) (fun c hc => (hyc c hc).2.2)]
  rw [pyWords_joinSpace (pyWords z) hgood]

/-- C9: `normalize_category` is idempotent on every string, and applied to
`"☕ Coffee "` it yields `"coffee"`. -/
theorem claim_C9_normalize_category_idempotent :
    (∀ s : String, normalize_category (normalize_category s) = normalize_category s) ∧
    normalize_category "☕ Coffee " = "coffee" := by
  constructor
  · intro s
    show (⟨normalizeCategoryL (normalizeCategoryL s.data)⟩ : String) =
      ⟨normalizeCategoryL s.data⟩
    rw [normalizeCategoryL_idem]
  · rfl

/-! ### Writer lemmas: idempotence of the per-order write sequence -/

theorem writeItems_collapse (f : Nat → List OrderItemRow) (i : Nat)
    (rows : List OrderItemRow) :
    (if rows.isEmpty then Function.update f i ([] : List OrderItemRow)
     else Function.update (Function.update f i []) i rows) =
    Function.update f i (if rows.isEmpty then [] else rows) := by
  cases rows with
  | nil => simp
  | cons a as => simp [Function.update_idem]

theorem writeOrder_some (s : Writer.Store) (p : OrderPayload)
    (rows : List OrderItemRow) (i : Nat)
    (h : s.idOf (Writer.upsertKey p) = some i) :
    Writer.writeOrder s p rows =
      { s with payloads := Function.update s.payloads i (some p),
               items := Function.update s.items i (if rows.isEmpty then [] else rows) } := by
  simp only [Writer.writeOrder, h]
  rw [writeItems_collapse]

theorem writeOrder_none (s : Writer.Store) (p : OrderPayload)
    (rows : List OrderItemRow)
    (h : s.idOf (Writer.upsertKey p) = none) :
    Writer.writeOrder s p rows =
      { idOf := Function.update s.idOf (Writer.upsertKey p) (some s.nextId),
        payloads := Function.update s.payloads s.nextId (some p),
        items := Function.update s.items s.nextId (if rows.isEmpty then [] else rows),
        nextId := s.nextId + 1 } := by
  simp only [Writer.writeOrder, h]
  rw [writeItems_collapse]

theorem WF_writeOrder (s : Writer.Store) (p : OrderPayload)
    (rows : List OrderItemRow) (h : Writer.WF s) :
    Writer.WF (Writer.writeOrder s p rows) := by
  obtain ⟨hlt, hinj⟩ := h
  cases hk : s.idOf (Writer.upsertKey p) with
  | some i =>
    rw [writeOrder_some s p rows i hk]
    exact ⟨hlt, hinj⟩
  | none =>
    rw [writeOrder_none s p rows hk]
    constructor
    · intro k i hki
      simp only at hki
      by_cases hkK : k = Writer.upsertKey p
      · subst hkK
        rw [Function.update_same] at hki
        injection hki with he
        show i < s.nextId + 1
        omega
      · rw [Function.update_noteq hkK] at hki
        have := hlt k i hki
        show i < s.nextId + 1
        omega
    · intro k1 k2 i h1 h2
      simp only at h1 h2
      by_cases e1 : k1 = Writer.upsertKey p <;> by_cases e2 : k2 = Writer.upsertKey p
      · rw [e1, e2]
      · subst e1
        rw [Function.update_same] at h1
        rw [Function.update_noteq e2] at h2
        injection h1 with he
        have := hlt k2 i h2
        omega
      · subst e2
        rw [Function.update_same] at h2
        rw [Function.update_noteq e1] at h1
        injection h2 with he
        have := hlt k1 i h1
        omega
      · rw [Function.update_noteq e1] at h1
        rw [Function.update_noteq e2] at h2
        exact hinj k1 k2 i h1 h2

theorem idOf_writeOrder_mono (s : Writer.Store) (p : OrderPayload)
    (rows : List OrderItemRow) (k : String × JVal) (i : Nat)
    (h : s.idOf k = some i) :
    (Writer.writeOrder s p rows).idOf k = some i := by
  cases hk : s.idOf (Writer.upsertKey p) with
  | some j =>
    rw [writeOrder_some s p rows j hk]
    exact h
  | none =>
    rw [writeOrder_none s p rows hk]
    have hne : k ≠ Writer.upsertKey p := by
      intro he
      rw [he, hk] at h
      cases h
    simp only
    rw [Function.update_noteq hne]
    exact h

theorem WF_runWriter : ∀ (l : List (OrderPayload × List OrderItemRow))
    (s : Writer.Store), Writer.WF s → Writer.WF (Writer.runWriter s l) := by
  intro l
  induction l with
  | nil => intro s h; exact h
  | cons pr l ih => intro s h; exact ih _ (WF_writeOrder s pr.1 pr.2 h)

theorem idOf_runWriter_mono : ∀ (l : List (OrderPayload × List OrderItemRow))
    (s : Writer.Store) (k : String × JVal) (i : Nat), s.idOf k = some i →
    (Writer.runWriter s l).idOf k = some i := by
  intro l
  induction l with
  | nil => intro s k i h; exact h
  | cons pr l ih => intro s k i h; exact ih _ k i (idOf_writeOrder_mono s pr.1 pr.2 k i h)

theorem writeOrder_overwrite (s : Writer.Store) (p q : OrderPayload)
    (rows rows2 : List OrderItemRow) (i : Nat)
    (hk : Writer.upsertKey q = Writer.upsertKey p)
    (h : s.idOf (Writer.upsertKey p) = some i) :
    Writer.writeOrder (Writer.writeOrder s p rows) q rows2 =
      Writer.writeOrder s q rows2 := by
  have e1 := writeOrder_some s p rows i h
  have hq : s.idOf (Writer.upsertKey q) = some i := by rw [hk]; exact h
  have h2 : (Writer.writeOrder s p rows).idOf (Writer.upsertKey q) = some i := by
    rw [e1]; exact hq
  rw [writeOrder_some _ q rows2 i h2, writeOrder_some s q rows2 i hq, e1]
  refine Writer.Store.ext rfl ?_ ?_ rfl
  · exact Function.update_idem _ _ _
  · exact Function.update_idem _ _ _

theorem writeOrder_comm (s : Writer.Store) (p q : OrderPayload)
    (rows rows2 : List OrderItemRow) (i : Nat)
    (hWF : Writer.WF s) (hp : s.idOf (Writer.upsertKey p) = some i)
    (hne : Writer.upsertKey q ≠ Writer.upsertKey p) :
    Writer.writeOrder (Writer.writeOrder s p rows) q rows2 =
      Writer.writeOrder (Writer.writeOrder s q rows2) p rows := by
  obtain ⟨hlt, hinj⟩ := hWF
  cases hq : s.idOf (Writer.upsertKey q) with
  | some j =>
    have hij : i ≠ j := by
      intro he
      exact hne (hinj _ _ _ hq (he ▸ hp))
    have e1 := writeOrder_some s p rows i hp
    have e2 := writeOrder_some s q rows2 j hq
    have hp2 : (Writer.writeOrder s q rows2).idOf (Writer.upsertKey p) = some i := by
      rw [e2]; exact hp
    have hq2 : (Writer.writeOrder s p rows).idOf (Writer.upsertKey q) = some j := by
      rw [e1]; exact hq
    rw [writeOrder_some _ q rows2 j hq2, writeOrder_some _ p rows i hp2, e1, e2]
    refine Writer.Store.ext rfl ?_ ?_ rfl
    · exact Function.update_comm hij _ _ _
    · exact Function.update_comm hij _ _ _
  | none =>
    have hilt : i < s.nextId := hlt _ _ hp
    have e1 := writeOrder_some s p rows i hp
    have hq2 : (Writer.writeOrder s p rows).idOf (Writer.upsertKey q) = none := by
      rw [e1]; exact hq
    have e2 := writeOrder_none s q rows2 hq
    have hp2 : (Writer.writeOrder s q rows2).idOf (Writer.upsertKey p) = some i := by
      rw [e2]
      simp only
      rw [Function.update_noteq (Ne.symm hne)]
      exact hp
    rw [writeOrder_none _ q rows2 hq2, writeOrder_some _ p rows i hp2, e1, e2]
    refine Writer.Store.ext rfl ?_ ?_ rfl
    · exact Function.update_comm (by omega : i ≠ s.nextId) _ _ _
    · exact Function.update_comm (by omega : i ≠ s.nextId) _ _ _

theorem runWriter_absorb : ∀ (l : List (OrderPayload × List OrderItemRow))
    (s : Writer.Store) (p : OrderPayload) (rows : List OrderItemRow) (i : Nat),
    Writer.WF s → s.idOf (Writer.upsertKey p) = some i →
    Writer.upsertKey p ∈ l.map (fun pr => Writer.upsertKey pr.1) →
    Writer.runWriter (Writer.writeOrder s p rows) l = Writer.runWriter s l := by
  intro l
  induction l with
  | nil =>
    intro s p rows i _ _ hmem
    simp at hmem
  | cons qr l ih =>
    intro s p rows i hWF hp hmem
    by_cases hk : Writer.upsertKey qr.1 = Writer.upsertKey p
    · show Writer.runWriter (Writer.writeOrder (Writer.writeOrder s p rows) qr.1 qr.2) l =
        Writer.runWriter (Writer.writeOrder s qr.1 qr.2) l
      rw [writeOrder_overwrite s p qr.1 rows qr.2 i hk hp]
    · have hmem2 : Writer.upsertKey p ∈ l.map (fun pr => Writer.upsertKey pr.1) := by
        rw [List.map_cons] at hmem
        rcases List.mem_cons.mp hmem with he | hm
        · exact absurd he.symm hk
        · exact hm
      show Writer.runWriter (Writer.writeOrder (Writer.writeOrder s p rows) qr.1 qr.2) l =
        Writer.runWriter (Writer.writeOrder s qr.1 qr.2) l
      rw [writeOrder_comm s p qr.1 rows qr.2 i hWF hp hk]
      exact ih (Writer.writeOrder s qr.1 qr.2) p rows i (WF_writeOrder _ _ _ hWF)
        (idOf_writeOrder_mono _ _ _ _ _ hp) hmem2

theorem runWriter_write_comm : ∀ (l : List (OrderPayload × List OrderItemRow))
    (s : Writer.Store) (p : OrderPayload) (rows : List OrderItemRow) (i : Nat),
    Writer.WF s → s.idOf (Writer.upsertKey p) = some i →
    Writer.upsertKey p ∉ l.map (fun pr => Writer.upsertKey pr.1) →
    Writer.runWriter (Writer.writeOrder s p rows) l =
      Writer.writeOrder (Writer.runWriter s l) p rows := by
  intro l
  induction l with
  | nil => intro s p rows i _ _ _; rfl
  | cons qr l ih =>
    intro s p rows i hWF hp hmem
    have hk : Writer.upsertKey qr.1 ≠ Writer.upsertKey p := by
      intro he
      exact hmem (by rw [List.map_cons, ← he]; exact List.mem_cons_self _ _)
    show Writer.runWriter (Writer.writeOrder (Writer.writeOrder s p rows) qr.1 qr.2) l = _
    rw [writeOrder_comm s p qr.1 rows qr.2 i hWF hp hk]
    exact ih (Writer.writeOrder s qr.1 qr.2) p rows i (WF_writeOrder _ _ _ hWF)
      (idOf_writeOrder_mono _ _ _ _ _ hp)
      (fun hm => hmem (by rw [List.map_cons]; exact List.mem_cons_of_mem _ hm))

theorem writeOrder_cell_other (s : Writer.Store) (q : OrderPayload)
    (rows2 : List OrderItemRow) (i : Nat) (k : String × JVal)
    (hWF : Writer.WF s) (hk : s.idOf k = some i)
    (hne : Writer.upsertKey q ≠ k) :
    (Writer.writeOrder s q rows2).payloads i = s.payloads i ∧
    (Writer.writeOrder s q rows2).items i = s.items i := by
  obtain ⟨hlt, hinj⟩ := hWF
  cases hq : s.idOf (Writer.upsertKey q) with
  | some j =>
    have hij : i ≠ j := by
      intro he
      have hk2 : s.idOf k = some j := he ▸ hk
      exact hne (hinj (Writer.upsertKey q) k j hq hk2)
    rw [writeOrder_some s q rows2 j hq]
    constructor
    · exact Function.update_noteq hij _ _
    · exact Function.update_noteq hij _ _
  | none =>
    have hilt : i < s.nextId := hlt _ _ hk
    rw [writeOrder_none s q rows2 hq]
    constructor
    · exact Function.update_noteq (by omega : i ≠ s.nextId) _ _
    · exact Function.update_noteq (by omega : i ≠ s.nextId) _ _

theorem runWriter_cell : ∀ (l : List (OrderPayload × List OrderItemRow))
    (s : Writer.Store) (i : Nat) (k : String × JVal),
    Writer.WF s → s.idOf k = some i →
    k ∉ l.map (fun pr => Writer.upsertKey pr.1) →
    (Writer.runWriter s l).payloads i = s.payloads i ∧
    (Writer.runWriter s l).items i = s.items i := by
  intro l
  induction l with
  | nil => intro s i k _ _ _; exact ⟨rfl, rfl⟩
  | cons qr l ih =>
    intro s i k hWF hk hmem
    have hne : Writer.upsertKey qr.1 ≠ k := by
      intro he
      exact hmem (by rw [List.map_cons, he]; exact List.mem_cons_self _ _)
    obtain ⟨e1, e2⟩ := writeOrder_cell_other s qr.1 qr.2 i k hWF hk hne
    obtain ⟨f1, f2⟩ := ih (Writer.writeOrder s qr.1 qr.2) i k (WF_writeOrder _ _ _ hWF)
      (idOf_writeOrder_mono _ _ _ _ _ hk)
      (fun hm => hmem (by rw [List.map_cons]; exact List.mem_cons_of_mem _ hm))
    exact ⟨f1.trans e1, f2.trans e2⟩

theorem writeOrder_self_eq (s : Writer.Store) (p : OrderPayload)
    (rows : List OrderItemRow) (i : Nat)
    (h1 : s.idOf (Writer.upsertKey p) = some i)
    (h2 : s.payloads i = some p) (h3 : s.items i = rows) :
    Writer.writeOrder s p rows = s := by
  rw [writeOrder_some s p rows i h1]
  have hcoll : (if rows.isEmpty then ([] : List OrderItemRow) else rows) = rows := by
    cases rows <;> simp
  refine Writer.Store.ext rfl ?_ ?_ rfl
  · rw [← h2, Function.update_eq_self]
  · rw [hcoll, ← h3, Function.update_eq_self]

theorem writeOrder_content (s : Writer.Store) (p : OrderPayload)
    (rows : List OrderItemRow) :
    ∃ i, (Writer.writeOrder s p rows).idOf (Writer.upsertKey p) = some i ∧
      (Writer.writeOrder s p rows).payloads i = some p ∧
      (Writer.writeOrder s p rows).items i = rows := by
  have hcoll : (if rows.isEmpty then ([] : List OrderItemRow) else rows) = rows := by
    cases rows <;> simp
  cases hk : s.idOf (Writer.upsertKey p) with
  | some i =>
    refine ⟨i, ?_, ?_, ?_⟩ <;> rw [writeOrder_some s p rows i hk]
    · exact hk
    · exact Function.update_same _ _ _
    · exact (Function.update_same _ _ _).trans hcoll
  | none =>
    refine ⟨s.nextId, ?_, ?_, ?_⟩ <;> rw [writeOrder_none s p rows hk]
    · exact Function.update_same _ _ _
    · exact Function.update_same _ _ _
    · exact (Function.update_same _ _ _).trans hcoll

theorem runWriter_idem : ∀ (l : List (OrderPayload × List OrderItemRow))
    (s : Writer.Store), Writer.WF s →
    Writer.runWriter (Writer.runWriter s l) l = Writer.runWriter s l := by
  intro l
  induction l with
  | nil => intro s _; rfl
  | cons pr l ih =>
    intro s hWF
    obtain ⟨p, rows⟩ := pr
    have hWF0 : Writer.WF (Writer.writeOrder s p rows) := WF_writeOrder s p rows hWF
    obtain ⟨i, hi, hpay, hit⟩ := writeOrder_content s p rows
    have hWF1 : Writer.WF (Writer.runWriter (Writer.writeOrder s p rows) l) :=
      WF_runWriter l _ hWF0
    have hi1 : (Writer.runWriter (Writer.writeOrder s p rows) l).idOf
        (Writer.upsertKey p) = some i :=
      idOf_runWriter_mono l _ _ _ hi
    show Writer.runWriter
        (Writer.writeOrder (Writer.runWriter (Writer.writeOrder s p rows) l) p rows) l =
      Writer.runWriter (Writer.writeOrder s p rows) l
    by_cases hmem : Writer.upsertKey p ∈ l.map (fun pr => Writer.upsertKey pr.1)
    · rw [runWriter_absorb l _ p rows i hWF1 hi1 hmem]
      exact ih _ hWF0
    · rw [runWriter_write_comm l _ p rows i hWF1 hi1 hmem]
      rw [ih _ hWF0]
      obtain ⟨c1, c2⟩ := runWriter_cell l (Writer.writeOrder s p rows) i
        (Writer.upsertKey p) hWF0 hi hmem
      exact writeOrder_self_eq _ p rows i hi1 (c1.trans hpay) (c2.trans hit)

/-- C2: the write coordinator upserts the Order row on the conflict key
`(source, source_order_id)`, resolves the store-assigned id, deletes the
existing OrderItem rows for that id and bulk-inserts the new rows (the
insert is skipped for an empty sequence) — see `Writer.writeOrder`; as a
consequence, running the same adapter output through the writer twice
leaves a well-formed store with exactly the same Order and OrderItem rows
as running it once. -/
theorem claim_C2_writer_idempotent (s : Writer.Store)
    (l : List (OrderPayload × List OrderItemRow)) (h : Writer.WF s) :
    Writer.runWriter (Writer.runWriter s l) l = Writer.runWriter s l :=
  runWriter_idem l s h

/-- C2 witness: double ingestion of two concrete orders (one with items,
one without) into the empty store. -/
theorem claim_C2_writer_idempotent_witness :
    Writer.WF Writer.emptyStore ∧
    Writer.runWriter (Writer.runWriter Writer.emptyStore demoRecords) demoRecords =
      Writer.runWriter Writer.emptyStore demoRecords :=
  ⟨Writer.WF_emptyStore,
   claim_C2_writer_idempotent Writer.emptyStore demoRecords Writer.WF_emptyStore⟩

end Ingest
